import Mathlib

namespace VN

/-- Spreadsheet cell values as seen by the Python code: a string, a number
(Excel numerics, modelled exactly as rationals), or a missing value (NaN). -/
inductive Cell where
  | str (s : String)
  | num (q : Rat)
  | nan
deriving DecidableEq, Repr

/-- Combining diacritical marks (Unicode category Mn) produced by canonical
decomposition of Vietnamese letters; `unicodedata.category(ch) == 'Mn'`
restricted to the Vietnamese character domain of this application. -/
def mnMarks : List Char :=
  ['\u0300', '\u0301', '\u0302', '\u0303', '\u0306', '\u0309', '\u031b', '\u0323']

def isMn (c : Char) : Bool := mnMarks.contains c

/-- Canonical (NFD) decomposition table for precomposed Vietnamese letters;
characters not listed decompose to themselves.  Models
`unicodedata.normalize('NFD', text)` on the Vietnamese character domain. -/
def decompTable : List (Char × List Char) :=
  [('\u00e0', ['\u0061', '\u0300']),
  ('\u00e1', ['\u0061', '\u0301']),
  ('\u1ea3', ['\u0061', '\u0309']),
  ('\u00e3', ['\u0061', '\u0303']),
  ('\u1ea1', ['\u0061', '\u0323']),
  ('\u0103', ['\u0061', '\u0306']),
  ('\u1eb1', ['\u0061', '\u0306', '\u0300']),
  ('\u1eaf', ['\u0061', '\u0306', '\u0301']),
  ('\u1eb3', ['\u0061', '\u0306', '\u0309']),
  ('\u1eb5', ['\u0061', '\u0306', '\u0303']),
  ('\u1eb7', ['\u0061', '\u0323', '\u0306']),
  ('\u00e2', ['\u0061', '\u0302']),
  ('\u1ea7', ['\u0061', '\u0302', '\u0300']),
  ('\u1ea5', ['\u0061', '\u0302', '\u0301']),
  ('\u1ea9', ['\u0061', '\u0302', '\u0309']),
  ('\u1eab', ['\u0061', '\u0302', '\u0303']),
  ('\u1ead', ['\u0061', '\u0323', '\u0302']),
  ('\u00e8', ['\u0065', '\u0300']),
  ('\u00e9', ['\u0065', '\u0301']),
  ('\u1ebb', ['\u0065', '\u0309']),
  ('\u1ebd', ['\u0065', '\u0303']),
  ('\u1eb9', ['\u0065', '\u0323']),
  ('\u00ea', ['\u0065', '\u0302']),
  ('\u1ec1', ['\u0065', '\u0302', '\u0300']),
  ('\u1ebf', ['\u0065', '\u0302', '\u0301']),
  ('\u1ec3', ['\u0065', '\u0302', '\u0309']),
  ('\u1ec5', ['\u0065', '\u0302', '\u0303']),
  ('\u1ec7', ['\u0065', '\u0323', '\u0302']),
  ('\u00ec', ['\u0069', '\u0300']),
  ('\u00ed', ['\u0069', '\u0301']),
  ('\u1ec9', ['\u0069', '\u0309']),
  ('\u0129', ['\u0069', '\u0303']),
  ('\u1ecb', ['\u0069', '\u0323']),
  ('\u00f2', ['\u006f', '\u0300']),
  ('\u00f3', ['\u006f', '\u0301']),
  ('\u1ecf', ['\u006f', '\u0309']),
  ('\u00f5', ['\u006f', '\u0303']),
  ('\u1ecd', ['\u006f', '\u0323']),
  ('\u00f4', ['\u006f', '\u0302']),
  ('\u1ed3', ['\u006f', '\u0302', '\u0300']),
  ('\u1ed1', ['\u006f', '\u0302', '\u0301']),
  ('\u1ed5', ['\u006f', '\u0302', '\u0309']),
  ('\u1ed7', ['\u006f', '\u0302', '\u0303']),
  ('\u1ed9', ['\u006f', '\u0323', '\u0302']),
  ('\u01a1', ['\u006f', '\u031b']),
  ('\u1edd', ['\u006f', '\u031b', '\u0300']),
  ('\u1edb', ['\u006f', '\u031b', '\u0301']),
  ('\u1edf', ['\u006f', '\u031b', '\u0309']),
  ('\u1ee1', ['\u006f', '\u031b', '\u0303']),
  ('\u1ee3', ['\u006f', '\u031b', '\u0323']),
  ('\u00f9', ['\u0075', '\u0300']),
  ('\u00fa', ['\u0075', '\u0301']),
  ('\u1ee7', ['\u0075', '\u0309']),
  ('\u0169', ['\u0075', '\u0303']),
  ('\u1ee5', ['\u0075', '\u0323']),
  ('\u01b0', ['\u0075', '\u031b']),
  ('\u1eeb', ['\u0075', '\u031b', '\u0300']),
  ('\u1ee9', ['\u0075', '\u031b', '\u0301']),
  ('\u1eed', ['\u0075', '\u031b', '\u0309']),
  ('\u1eef', ['\u0075', '\u031b', '\u0303']),
  ('\u1ef1', ['\u0075', '\u031b', '\u0323']),
  ('\u1ef3', ['\u0079', '\u0300']),
  ('\u00fd', ['\u0079', '\u0301']),
  ('\u1ef7', ['\u0079', '\u0309']),
  ('\u1ef9', ['\u0079', '\u0303']),
  ('\u1ef5', ['\u0079', '\u0323']),
  ('\u00c0', ['\u0041', '\u0300']),
  ('\u00c1', ['\u0041', '\u0301']),
  ('\u1ea2', ['\u0041', '\u0309']),
  ('\u00c3', ['\u0041', '\u0303']),
  ('\u1ea0', ['\u0041', '\u0323']),
  ('\u0102', ['\u0041', '\u0306']),
  ('\u1eb0', ['\u0041', '\u0306', '\u0300']),
  ('\u1eae', ['\u0041', '\u0306', '\u0301']),
  ('\u1eb2', ['\u0041', '\u0306', '\u0309']),
  ('\u1eb4', ['\u0041', '\u0306', '\u0303']),
  ('\u1eb6', ['\u0041', '\u0323', '\u0306']),
  ('\u00c2', ['\u0041', '\u0302']),
  ('\u1ea6', ['\u0041', '\u0302', '\u0300']),
  ('\u1ea4', ['\u0041', '\u0302', '\u0301']),
  ('\u1ea8', ['\u0041', '\u0302', '\u0309']),
  ('\u1eaa', ['\u0041', '\u0302', '\u0303']),
  ('\u1eac', ['\u0041', '\u0323', '\u0302']),
  ('\u00c8', ['\u0045', '\u0300']),
  ('\u00c9', ['\u0045', '\u0301']),
  ('\u1eba', ['\u0045', '\u0309']),
  ('\u1ebc', ['\u0045', '\u0303']),
  ('\u1eb8', ['\u0045', '\u0323']),
  ('\u00ca', ['\u0045', '\u0302']),
  ('\u1ec0', ['\u0045', '\u0302', '\u0300']),
  ('\u1ebe', ['\u0045', '\u0302', '\u0301']),
  ('\u1ec2', ['\u0045', '\u0302', '\u0309']),
  ('\u1ec4', ['\u0045', '\u0302', '\u0303']),
  ('\u1ec6', ['\u0045', '\u0323', '\u0302']),
  ('\u00cc', ['\u0049', '\u0300']),
  ('\u00cd', ['\u0049', '\u0301']),
  ('\u1ec8', ['\u0049', '\u0309']),
  ('\u0128', ['\u0049', '\u0303']),
  ('\u1eca', ['\u0049', '\u0323']),
  ('\u00d2', ['\u004f', '\u0300']),
  ('\u00d3', ['\u004f', '\u0301']),
  ('\u1ece', ['\u004f', '\u0309']),
  ('\u00d5', ['\u004f', '\u0303']),
  ('\u1ecc', ['\u004f', '\u0323']),
  ('\u00d4', ['\u004f', '\u0302']),
  ('\u1ed2', ['\u004f', '\u0302', '\u0300']),
  ('\u1ed0', ['\u004f', '\u0302', '\u0301']),
  ('\u1ed4', ['\u004f', '\u0302', '\u0309']),
  ('\u1ed6', ['\u004f', '\u0302', '\u0303']),
  ('\u1ed8', ['\u004f', '\u0323', '\u0302']),
  ('\u01a0', ['\u004f', '\u031b']),
  ('\u1edc', ['\u004f', '\u031b', '\u0300']),
  ('\u1eda', ['\u004f', '\u031b', '\u0301']),
  ('\u1ede', ['\u004f', '\u031b', '\u0309']),
  ('\u1ee0', ['\u004f', '\u031b', '\u0303']),
  ('\u1ee2', ['\u004f', '\u031b', '\u0323']),
  ('\u00d9', ['\u0055', '\u0300']),
  ('\u00da', ['\u0055', '\u0301']),
  ('\u1ee6', ['\u0055', '\u0309']),
  ('\u0168', ['\u0055', '\u0303']),
  ('\u1ee4', ['\u0055', '\u0323']),
  ('\u01af', ['\u0055', '\u031b']),
  ('\u1eea', ['\u0055', '\u031b', '\u0300']),
  ('\u1ee8', ['\u0055', '\u031b', '\u0301']),
  ('\u1eec', ['\u0055', '\u031b', '\u0309']),
  ('\u1eee', ['\u0055', '\u031b', '\u0303']),
  ('\u1ef0', ['\u0055', '\u031b', '\u0323']),
  ('\u1ef2', ['\u0059', '\u0300']),
  ('\u00dd', ['\u0059', '\u0301']),
  ('\u1ef6', ['\u0059', '\u0309']),
  ('\u1ef8', ['\u0059', '\u0303']),
  ('\u1ef4', ['\u0059', '\u0323'])]

def decompCh (c : Char) : List Char := (decompTable.lookup c).getD [c]

/-- Lower-casing table (ASCII A-Z, Vietnamese precomposed capitals, Đ);
characters not listed are their own lowercase. Models `str.lower()` on the
application's character domain. -/
def lowTable : List (Char × Char) :=
  [('\u0041', '\u0061'),
  ('\u0042', '\u0062'),
  ('\u0043', '\u0063'),
  ('\u0044', '\u0064'),
  ('\u0045', '\u0065'),
  ('\u0046', '\u0066'),
  ('\u0047', '\u0067'),
  ('\u0048', '\u0068'),
  ('\u0049', '\u0069'),
  ('\u004a', '\u006a'),
  ('\u004b', '\u006b'),
  ('\u004c', '\u006c'),
  ('\u004d', '\u006d'),
  ('\u004e', '\u006e'),
  ('\u004f', '\u006f'),
  ('\u0050', '\u0070'),
  ('\u0051', '\u0071'),
  ('\u0052', '\u0072'),
  ('\u0053', '\u0073'),
  ('\u0054', '\u0074'),
  ('\u0055', '\u0075'),
  ('\u0056', '\u0076'),
  ('\u0057', '\u0077'),
  ('\u0058', '\u0078'),
  ('\u0059', '\u0079'),
  ('\u005a', '\u007a'),
  ('\u0110', '\u0111'),
  ('\u00c0', '\u00e0'),
  ('\u00c1', '\u00e1'),
  ('\u00c2', '\u00e2'),
  ('\u00c3', '\u00e3'),
  ('\u00c8', '\u00e8'),
  ('\u00c9', '\u00e9'),
  ('\u00ca', '\u00ea'),
  ('\u00cc', '\u00ec'),
  ('\u00cd', '\u00ed'),
  ('\u00d2', '\u00f2'),
  ('\u00d3', '\u00f3'),
  ('\u00d4', '\u00f4'),
  ('\u00d5', '\u00f5'),
  ('\u00d9', '\u00f9'),
  ('\u00da', '\u00fa'),
  ('\u00dd', '\u00fd'),
  ('\u0102', '\u0103'),
  ('\u0128', '\u0129'),
  ('\u0168', '\u0169'),
  ('\u01a0', '\u01a1'),
  ('\u01af', '\u01b0'),
  ('\u1ea0', '\u1ea1'),
  ('\u1ea2', '\u1ea3'),
  ('\u1ea4', '\u1ea5'),
  ('\u1ea6', '\u1ea7'),
  ('\u1ea8', '\u1ea9'),
  ('\u1eaa', '\u1eab'),
  ('\u1eac', '\u1ead'),
  ('\u1eae', '\u1eaf'),
  ('\u1eb0', '\u1eb1'),
  ('\u1eb2', '\u1eb3'),
  ('\u1eb4', '\u1eb5'),
  ('\u1eb6', '\u1eb7'),
  ('\u1eb8', '\u1eb9'),
  ('\u1eba', '\u1ebb'),
  ('\u1ebc', '\u1ebd'),
  ('\u1ebe', '\u1ebf'),
  ('\u1ec0', '\u1ec1'),
  ('\u1ec2', '\u1ec3'),
  ('\u1ec4', '\u1ec5'),
  ('\u1ec6', '\u1ec7'),
  ('\u1ec8', '\u1ec9'),
  ('\u1eca', '\u1ecb'),
  ('\u1ecc', '\u1ecd'),
  ('\u1ece', '\u1ecf'),
  ('\u1ed0', '\u1ed1'),
  ('\u1ed2', '\u1ed3'),
  ('\u1ed4', '\u1ed5'),
  ('\u1ed6', '\u1ed7'),
  ('\u1ed8', '\u1ed9'),
  ('\u1eda', '\u1edb'),
  ('\u1edc', '\u1edd'),
  ('\u1ede', '\u1edf'),
  ('\u1ee0', '\u1ee1'),
  ('\u1ee2', '\u1ee3'),
  ('\u1ee4', '\u1ee5'),
  ('\u1ee6', '\u1ee7'),
  ('\u1ee8', '\u1ee9'),
  ('\u1eea', '\u1eeb'),
  ('\u1eec', '\u1eed'),
  ('\u1eee', '\u1eef'),
  ('\u1ef0', '\u1ef1'),
  ('\u1ef2', '\u1ef3'),
  ('\u1ef4', '\u1ef5'),
  ('\u1ef6', '\u1ef7'),
  ('\u1ef8', '\u1ef9')]

def toLowCh (c : Char) : Char := (lowTable.lookup c).getD c

/-- Code points matched by the regex class `\s` (and stripped by
`str.strip()`). -/
def wsCodes : List Nat :=
  [9, 10, 11, 12, 13, 28, 29, 30, 31, 32, 133, 160, 0x1680,
   0x2000, 0x2001, 0x2002, 0x2003, 0x2004, 0x2005, 0x2006, 0x2007,
   0x2008, 0x2009, 0x200a, 0x2028, 0x2029, 0x202f, 0x205f, 0x3000]

def isWs (c : Char) : Bool := wsCodes.contains c.toNat

/-- Non-ASCII characters of the application's domain matched by the regex
class `\w` (Vietnamese letters, both cases). -/
def vnWordChars : List Char :=
  ['\u00c0',
  '\u00c1',
  '\u00c2',
  '\u00c3',
  '\u00c8',
  '\u00c9',
  '\u00ca',
  '\u00cc',
  '\u00cd',
  '\u00d2',
  '\u00d3',
  '\u00d4',
  '\u00d5',
  '\u00d9',
  '\u00da',
  '\u00dd',
  '\u00e0',
  '\u00e1',
  '\u00e2',
  '\u00e3',
  '\u00e8',
  '\u00e9',
  '\u00ea',
  '\u00ec',
  '\u00ed',
  '\u00f2',
  '\u00f3',
  '\u00f4',
  '\u00f5',
  '\u00f9',
  '\u00fa',
  '\u00fd',
  '\u0102',
  '\u0103',
  '\u0110',
  '\u0111',
  '\u0128',
  '\u0129',
  '\u0168',
  '\u0169',
  '\u01a0',
  '\u01a1',
  '\u01af',
  '\u01b0',
  '\u1ea0',
  '\u1ea1',
  '\u1ea2',
  '\u1ea3',
  '\u1ea4',
  '\u1ea5',
  '\u1ea6',
  '\u1ea7',
  '\u1ea8',
  '\u1ea9',
  '\u1eaa',
  '\u1eab',
  '\u1eac',
  '\u1ead',
  '\u1eae',
  '\u1eaf',
  '\u1eb0',
  '\u1eb1',
  '\u1eb2',
  '\u1eb3',
  '\u1eb4',
  '\u1eb5',
  '\u1eb6',
  '\u1eb7',
  '\u1eb8',
  '\u1eb9',
  '\u1eba',
  '\u1ebb',
  '\u1ebc',
  '\u1ebd',
  '\u1ebe',
  '\u1ebf',
  '\u1ec0',
  '\u1ec1',
  '\u1ec2',
  '\u1ec3',
  '\u1ec4',
  '\u1ec5',
  '\u1ec6',
  '\u1ec7',
  '\u1ec8',
  '\u1ec9',
  '\u1eca',
  '\u1ecb',
  '\u1ecc',
  '\u1ecd',
  '\u1ece',
  '\u1ecf',
  '\u1ed0',
  '\u1ed1',
  '\u1ed2',
  '\u1ed3',
  '\u1ed4',
  '\u1ed5',
  '\u1ed6',
  '\u1ed7',
  '\u1ed8',
  '\u1ed9',
  '\u1eda',
  '\u1edb',
  '\u1edc',
  '\u1edd',
  '\u1ede',
  '\u1edf',
  '\u1ee0',
  '\u1ee1',
  '\u1ee2',
  '\u1ee3',
  '\u1ee4',
  '\u1ee5',
  '\u1ee6',
  '\u1ee7',
  '\u1ee8',
  '\u1ee9',
  '\u1eea',
  '\u1eeb',
  '\u1eec',
  '\u1eed',
  '\u1eee',
  '\u1eef',
  '\u1ef0',
  '\u1ef1',
  '\u1ef2',
  '\u1ef3',
  '\u1ef4',
  '\u1ef5',
  '\u1ef6',
  '\u1ef7',
  '\u1ef8',
  '\u1ef9']

/-- The regex class `\w`: ASCII alphanumerics, underscore, and the
Vietnamese letters of the domain. -/
def isWordCh (c : Char) : Bool :=
  (48 ≤ c.toNat && c.toNat ≤ 57) || (65 ≤ c.toNat && c.toNat ≤ 90) ||
  (97 ≤ c.toNat && c.toNat ≤ 122) || c.toNat == 95 || vnWordChars.contains c

/-- `remove_tones` on a character list: NFD decomposition followed by
removal of nonspacing marks (`unicodedata.category(ch) != 'Mn'`). -/
def removeTonesL (l : List Char) : List Char :=
  (l.flatMap decompCh).filter (fun c => !(isMn c))

/-- `remove_tones(text)` from app.py: non-strings are returned unchanged. -/
def remove_tones (c : Cell) : Cell :=
  match c with
  | .str s => .str ⟨removeTonesL s.toList⟩
  | other => other

/-- `str.lower()`. -/
def lowerL (l : List Char) : List Char := l.map toLowCh

/-- `re.sub(r'[^\w\s,]', ' ', addr)`: every character that is not a word
character, whitespace, or a comma becomes a single space. -/
def punctL (l : List Char) : List Char :=
  l.map (fun c => if isWordCh c || isWs c || c == ',' then c else ' ')

/-- State machine for `re.sub(r'\s+', ' ', addr)`: the flag records whether
the previous character was whitespace (i.e. we are inside a run that has
already emitted its single space). -/
def collapseGo : Bool → List Char → List Char
  | _, [] => []
  | inWs, c :: rest =>
    if isWs c then
      if inWs then collapseGo true rest else ' ' :: collapseGo true rest
    else c :: collapseGo false rest

/-- `re.sub(r'\s+', ' ', addr)`: each maximal whitespace run becomes one
space. -/
def collapseWs (l : List Char) : List Char := collapseGo false l

/-- `str.strip()`: remove leading and trailing whitespace. -/
def stripL (l : List Char) : List Char :=
  ((l.dropWhile isWs).reverse.dropWhile isWs).reverse

/-- State machine for `re.sub(r',\s+', ',', addr)`: after emitting a comma
the machine discards the following whitespace run (the regex consumed
`,\s+` and replaced it by `,`, resuming after the comma). -/
def subCommaWsGo : Bool → List Char → List Char
  | _, [] => []
  | afterComma, c :: rest =>
    if afterComma && isWs c then subCommaWsGo true rest
    else if c == ',' then ',' :: subCommaWsGo true rest
    else c :: subCommaWsGo false rest

/-- `re.sub(r',\s+', ',', addr)`. -/
def subCommaWs (l : List Char) : List Char := subCommaWsGo false l

/-- State machine for `re.sub(r'\s+,', ',', addr)`: `pend` buffers the
current whitespace run; if the run turns out to be followed by a comma it
is dropped (the regex match `\s+,` is replaced by `,`), otherwise it is
emitted unchanged.  The leftmost regex match always starts at the
beginning of a maximal whitespace run, since the same non-comma character
follows every position inside a run that is not followed by a comma. -/
def subWsCommaGo : List Char → List Char → List Char
  | pend, [] => pend
  | pend, c :: rest =>
    if isWs c then subWsCommaGo (pend ++ [c]) rest
    else if c == ',' then ',' :: subWsCommaGo [] rest
    else pend ++ c :: subWsCommaGo [] rest

/-- `re.sub(r'\s+,', ',', addr)`. -/
def subWsComma (l : List Char) : List Char := subWsCommaGo [] l

/-- The string pipeline of `clean_address` on character lists. -/
def cleanL (l : List Char) : List Char :=
  subWsComma (subCommaWs (stripL (collapseWs (punctL (lowerL (removeTonesL l))))))

/-- `clean_address(addr)` from app.py: non-strings normalize to `""`. -/
def clean_address (c : Cell) : String :=
  match c with
  | .str s => ⟨cleanL s.toList⟩
  | _ => ""

example : clean_address (.str "  Đường  Lê -- Lợi , 7 ") = "đuong le loi,7" := by decide
example : clean_address (.str "LO A-9H-CN,KCN BAU BANG,THI TRAN LAI UYEN,") =
    "lo a 9h cn,kcn bau bang,thi tran lai uyen," := by decide
example : clean_address .nan = "" := by decide

/-- Positions `j` with `blo ≤ j < bhi` and `b[j] = ch`, ascending: the
iteration order of difflib's `b2j[a[i]]` restricted to the window. -/
def matchPositions (b : List Char) (blo bhi : Nat) (ch : Char) : List Nat :=
  (List.range b.length).filter (fun j => blo ≤ j && j < bhi && b.getD j ' ' == ch)

/-- One row of difflib's `find_longest_match` dynamic program: `prev` is
`j2len` from the previous `i`, `j`s are scanned ascending, and `best`
is `(besti, bestj, bestsize)`, updated whenever a strictly longer run is
found (`k > bestsize`). -/
def fmlRow (prev : List (Nat × Nat)) (i : Nat) :
    List Nat → Nat × Nat × Nat → List (Nat × Nat) × (Nat × Nat × Nat)
  | [], best => ([], best)
  | j :: js, best =>
    let k := (if j == 0 then 0 else (prev.lookup (j - 1)).getD 0) + 1
    let best' := if k > best.2.2 then (i + 1 - k, j + 1 - k, k) else best
    let (row, bfin) := fmlRow prev i js best'
    ((j, k) :: row, bfin)

/-- The outer `for i in range(alo, ahi)` loop of `find_longest_match`. -/
def fmlLoop (a b : List Char) (blo bhi : Nat) :
    List Nat → List (Nat × Nat) → Nat × Nat × Nat → Nat × Nat × Nat
  | [], _, best => best
  | i :: is, prev, best =>
    let (row, best') := fmlRow prev i (matchPositions b blo bhi (a.getD i ' ')) best
    fmlLoop a b blo bhi is row best'

/-- difflib `SequenceMatcher.find_longest_match` on the windows
`a[alo:ahi]`, `b[blo:bhi]`, with no junk (the junk/popular extension
loops are no-ops when nothing is junked: the dynamic program already
tracks maximal in-window runs). -/
def findLongestMatch (a b : List Char) (alo ahi blo bhi : Nat) : Nat × Nat × Nat :=
  fmlLoop a b blo bhi (List.range' alo (ahi - alo)) [] (alo, blo, 0)

/-- Total size of difflib's matching blocks: the recursive split of
`get_matching_blocks` around each longest match.  `fuel` dominates the
recursion depth (each split strictly shrinks the window sum). -/
def matchTotalGo (a b : List Char) : Nat → Nat × Nat → Nat × Nat → Nat
  | 0, _, _ => 0
  | fuel + 1, (alo, ahi), (blo, bhi) =>
    let (i, j, k) := findLongestMatch a b alo ahi blo bhi
    if k == 0 then 0
    else
      k + matchTotalGo a b fuel (alo, i) (blo, j) +
        matchTotalGo a b fuel (i + k, ahi) (j + k, bhi)

def matchTotal (a b : List Char) : Nat :=
  matchTotalGo a b (a.length + b.length + 1) (0, a.length) (0, b.length)

/-- `difflib.SequenceMatcher(None, a, b).ratio()`: `2*M / (len(a)+len(b))`
(and 1.0 for two empty sequences), the float division modelled exactly as
a rational. -/
def smRatio (a b : List Char) : ℚ :=
  if a.length + b.length == 0 then mkRat 1 1
  else mkRat (2 * matchTotal a b) (a.length + b.length)

example : smRatio "abcd".toList "bcde".toList = mkRat 6 8 := by decide

/-- Python's substring test `small in big` (contiguous; the empty string is
a substring of everything). -/
def containsSub (big small : List Char) : Bool :=
  match big with
  | [] => small.isEmpty
  | c :: t => small.isPrefixOf (c :: t) || containsSub t small

/-- Python `s.split(',')`. -/
def splitCommaGo (cur : List Char) : List Char → List (List Char)
  | [] => [cur.reverse]
  | c :: rest =>
    if c == ',' then cur.reverse :: splitCommaGo [] rest
    else splitCommaGo (c :: cur) rest

def splitComma (l : List Char) : List (List Char) := splitCommaGo [] l

/-- Python `s.split()` (split on whitespace runs, no empty pieces). -/
def splitWsGo (cur : List Char) : List Char → List (List Char)
  | [] => if cur.isEmpty then [] else [cur.reverse]
  | c :: rest =>
    if isWs c then
      if cur.isEmpty then splitWsGo [] rest else cur.reverse :: splitWsGo [] rest
    else splitWsGo (c :: cur) rest

def splitWs (l : List Char) : List (List Char) := splitWsGo [] l

/-- Python `' '.join(parts)`. -/
def joinSpace : List (List Char) → List Char
  | [] => []
  | [x] => x
  | x :: rest => x ++ ' ' :: joinSpace rest

/-- Distinct elements (Python `set(...)`; only membership and cardinality
of the result are ever used, so representation order is irrelevant). -/
def dedupL : List (List Char) → List (List Char)
  | [] => []
  | x :: rest =>
    let d := dedupL rest
    if d.contains x then d else x :: d

/-- Python `set(w1).issubset(set(w2))`. -/
def subsetB (w1 w2 : List (List Char)) : Bool := w1.all (fun x => w2.contains x)

/-- `flexible_address_match(addr1, addr2, threshold=0.65)` from app.py.
Float arithmetic (difflib ratios, the `0.7` overlap cut-offs, the
threshold) is modelled exactly over ℚ. -/
def flexible_address_match (addr1 addr2 : Cell) (threshold : ℚ) : Bool :=
  let a1 := (clean_address addr1).toList
  let a2 := (clean_address addr2).toList
  if a1.isEmpty || a2.isEmpty then false
  else if a1 == a2 then true
  else if containsSub a2 a1 || containsSub a1 a2 then true
  else
    let a1parts := ((splitComma a1).map stripL).filter (fun p => !p.isEmpty)
    let a2parts := ((splitComma a2).map stripL).filter (fun p => !p.isEmpty)
    if (!a1parts.isEmpty && !a2parts.isEmpty) &&
        (a1parts.all (fun p1 => a2parts.any (fun p2 => decide (mkRat 7 10 ≤ smRatio p1 p2))) ||
          a2parts.all (fun p2 => a1parts.any (fun p1 => decide (mkRat 7 10 ≤ smRatio p2 p1)))) then
      true
    else
      let comb1 := if a1parts.isEmpty then a1 else joinSpace a1parts
      let comb2 := if a2parts.isEmpty then a2 else joinSpace a2parts
      if threshold ≤ smRatio comb1 comb2 then true
      else
        let words1 := splitWs comb1
        let words2 := splitWs comb2
        if !words1.isEmpty && !words2.isEmpty then
          if subsetB words1 words2 || subsetB words2 words1 then true
          else
            let w1 := dedupL words1
            let w2 := dedupL words2
            let common := (w1.filter (fun x => w2.contains x)).length
            decide (mkRat 7 10 ≤ mkRat common (min w1.length w2.length))
        else false

/-- The default threshold `0.65` of `flexible_address_match`. -/
def threshold065 : ℚ := mkRat 13 20

example : flexible_address_match (.str "Lo A-9H-CN, KCN Bau Bang")
    (.str "LO A-9H-CN,KCN BAU BANG,THI TRAN LAI UYEN,") threshold065 = true := by decide
example : flexible_address_match (.str "a") (.str "abcdefghij klmnop") threshold065 = true := by
  decide
example : flexible_address_match .nan (.str "abc") threshold065 = false := by decide

/-- A spreadsheet row: ordered association of column names to cell values. -/
abbrev Row := List (String × Cell)

/-- Python `str(x)` on a cell (as in `astype(str)` and f-string
interpolation).  Whole numbers render with a trailing `.0` as Python
floats do; the fractional rendering is never exercised (the claims only
stringify strings and whole numbers).  NaN renders `"nan"`. -/
def pyStr (c : Cell) : String :=
  match c with
  | .str s => s
  | .num q => if q.den == 1 then toString q.num ++ ".0" else toString q
  | .nan => "nan"

/-- Python truthiness of a cell (`if new_addr3:`): non-empty string,
non-zero number; NaN is truthy. -/
def pyTruthy (c : Cell) : Bool :=
  match c with
  | .str s => !s.isEmpty
  | .num q => q.num != 0
  | .nan => true

/-- Digit run of Python `int(s)` with single underscores allowed between
digits (`int("1_0") = 10`). -/
def pyIntDigitsGo (acc : Nat) : List Char → Option Nat
  | [] => some acc
  | c :: rest =>
    if c.isDigit then pyIntDigitsGo (acc * 10 + (c.toNat - 48)) rest
    else if c == '_' then
      match rest with
      | d :: _ => if d.isDigit then pyIntDigitsGo acc rest else none
      | [] => none
    else none

def pyIntDigits (l : List Char) : Option Nat :=
  match l with
  | c :: _ => if c.isDigit then pyIntDigitsGo 0 l else none
  | [] => none

/-- Python `int(s)` on a string: optional surrounding whitespace, optional
sign, digits; everything else raises `ValueError` (`none`). -/
def pyIntStr (s : String) : Option Int :=
  match stripL s.toList with
  | '+' :: ds => (pyIntDigits ds).map (fun n => (n : Int))
  | '-' :: ds => (pyIntDigits ds).map (fun n => -(n : Int))
  | ds => (pyIntDigits ds).map (fun n => (n : Int))

/-- Python `int(x)` on a cell: strings are parsed, numbers truncate toward
zero, NaN raises `ValueError` (`none`). -/
def pyIntCell (c : Cell) : Option Int :=
  match c with
  | .str s => pyIntStr s
  | .num q => some (q.num.tdiv (q.den : Int))
  | .nan => none

/-- The pickup count read from "How Many Pick Up Address Do You Have?":
`int(...)` inside `try`, with `except: pickup_num = 0`, then
`if pickup_num > 3: pickup_num = 3`. -/
def pickupNumOf (c : Cell) : Int :=
  match pyIntCell c with
  | some n => if n > 3 then 3 else n
  | none => 0

/-- `row[k]` on a pandas Series: `KeyError` when the column is absent. -/
def rowGet (r : Row) (k : String) : Except String Cell :=
  match r.lookup k with
  | some v => .ok v
  | none => .error ("KeyError: " ++ k)

/-- `row.get(k, d)`. -/
def rowGetD (r : Row) (k : String) (d : Cell) : Cell := (r.lookup k).getD d

/-- `k in row` (membership in the Series index). -/
def hasKey (r : Row) (k : String) : Bool := (r.lookup k).isSome

/-- Dict assignment `d[k] = v`: replace in place if the key exists,
otherwise append. -/
def dictSet (r : Row) (k : String) (v : Cell) : Row :=
  if hasKey r k then r.map (fun kv => if kv.1 == k then (kv.1, v) else kv)
  else r ++ [(k, v)]

def lowerStr (s : String) : String := ⟨lowerL s.toList⟩

def stripStr (s : String) : String := ⟨stripL s.toList⟩

/-- Python `cell == "02"` etc.: only equal strings compare equal (a number
or NaN never equals a string). -/
def pyEqStr (c : Cell) (s : String) : Bool :=
  match c with
  | .str t => t == s
  | _ => false

/-- Python `cell + s`: string concatenation; a non-string cell raises
`TypeError`. -/
def pyConcat (c : Cell) (s : String) : Except String Cell :=
  match c with
  | .str t => .ok (.str (t ++ s))
  | _ => .error "TypeError: can only concatenate str"

/-- The per-output-row loop `for col in row.index: if isinstance(row[col],
str): out[col] = remove_tones(row[col])`. -/
def toneFree (r : Row) : Row := r.map (fun kv => (kv.1, remove_tones kv.2))

/-- An unmatched output row: tone-free copy of the form row plus the
`'Unmatched Reason'` column. -/
def unmatchedOf (row : Row) (reason : String) : Row :=
  dictSet (toneFree row) "Unmatched Reason" (.str reason)

def colAcc : String := "Account Number"
def colSame : String := "Is Your New Billing Address the Same as Your Pickup and Delivery Address?"
def colNA1 : String := "New Address Line 1 (Address No., Industrial Park Name, etc)-In English Only"
def colNA2 : String := "New Address Line 2 (Street Name)-In English Only"
def colNA3 : String := "New Address Line 3 (Ward/Commune)-In English Only"
def colCity : String := "City / Province"
def colContact : String := "Full Name of Contact-In English Only"
def colB1 : String := "New Billing Address Line 1 (Address No., Industrial Park Name, etc)-In English Only"
def colB2 : String := "New Billing Address Line 2 (Street Name)-In English Only"
def colB3 : String := "New Billing Address Line 3 (Ward/Commune)-In English Only"
def colBCity : String := "New Billing City / Province"
def colD1 : String := "New Delivery Address Line 1 (Address No., Industrial Park Name, etc)-In English Only"
def colD2 : String := "New Delivery Address Line 2 (Street Name)-In English Only"
def colD3 : String := "New Delivery Address Line 3 (Ward/Commune)-In English Only"
def colDCity : String := "New Delivery City / Province"
def colHowMany : String := "How Many Pick Up Address Do You Have?"
def colUType : String := "Address Type"
def colUA1 : String := "Address Line 1"
def colUA2 : String := "Address Line 2"
def colACName : String := "AC_Name"
def colPostal : String := "Postal_Code"
def colCountry : String := "Country_Code"
def colACC : String := "Address_Country_Code"

/-- `combined = f"{a1}, {a2}"`, then `if a3: combined += f", {a3}"`. -/
def combine3 (a1 a2 a3 : Cell) : String :=
  pyStr a1 ++ ", " ++ pyStr a2 ++ (if pyTruthy a3 then ", " ++ pyStr a3 else "")

/-- UPS side: `combined = f"{u1}"`, then `if u2: combined += f", {u2}"`. -/
def combineUps (u1 u2 : Cell) : String :=
  pyStr u1 ++ (if pyTruthy u2 then ", " ++ pyStr u2 else "")

example : pickupNumOf (.str "two") = 0 := by decide
example : pickupNumOf (.str " 2 ") = 2 := by decide
example : pickupNumOf (.str "7") = 3 := by decide
example : pickupNumOf (.num 2) = 2 := by decide
example : pickupNumOf .nan = 0 := by decide

/-- One row of the upload template (`upload_template_rows.append({...})`);
the fixed-key dict is modelled as a structure. -/
structure TRow where
  acNum : Cell
  acAddressType : String
  invoiceOption : String
  acName : Cell
  addressLine1 : Cell
  addressLine2 : Cell
  city : Cell
  postalCode : Cell
  countryCode : Cell
  attentionName : Cell
  addressLine22 : Cell
  addressCountryCode : Cell
  matchingScore : String
deriving DecidableEq, Repr

/-- The billing / unified fan-out: `for code in ["1", "2", "6"]` — three
upload rows, invoice option equal to the code, identical address fields. -/
def billingTemplate (acct acName postal country acountry contact a1 a2 a3 city : Cell) :
    List TRow :=
  ["1", "2", "6"].map (fun code =>
    { acNum := acct, acAddressType := code, invoiceOption := code, acName := acName,
      addressLine1 := remove_tones a1, addressLine2 := remove_tones a2, city := city,
      postalCode := postal, countryCode := country, attentionName := contact,
      addressLine22 := remove_tones a3, addressCountryCode := acountry,
      matchingScore := "High" })

/-- One pickup address block of the split branch. -/
structure PickupAddr where
  l1 : Cell
  l2 : Cell
  l3 : Cell
  city : Cell
  combined : String
deriving DecidableEq, Repr

/-- One pickup upload row (`AC_Address_Type = "02"`, no invoice option). -/
def pickupTemplate (acct acName postal country acountry contact : Cell)
    (pu : PickupAddr) : TRow :=
  { acNum := acct, acAddressType := "02", invoiceOption := "", acName := acName,
    addressLine1 := remove_tones pu.l1, addressLine2 := remove_tones pu.l2,
    city := pu.city, postalCode := postal, countryCode := country,
    attentionName := contact, addressLine22 := remove_tones pu.l3,
    addressCountryCode := acountry, matchingScore := "High" }

/-- The single delivery upload row (`AC_Address_Type = "13"`, no invoice
option). -/
def deliveryTemplate (acct acName postal country acountry contact d1 d2 d3 city : Cell) : TRow :=
  { acNum := acct, acAddressType := "13", invoiceOption := "", acName := acName,
    addressLine1 := remove_tones d1, addressLine2 := remove_tones d2, city := city,
    postalCode := postal, countryCode := country, attentionName := contact,
    addressLine22 := remove_tones d3, addressCountryCode := acountry,
    matchingScore := "High" }

/-- `check_address_in_ups(combined_form_addr, addr_type_code)` (also the
inline type-01 loop of the unified branch): first UPS row of the account
group whose Address Type equals the code and whose combined address
satisfies `flexible_address_match` at the default threshold. -/
def check_address_in_ups (upsAcc : List Row) (combined : String) (code : String) :
    Except String (Option Row) :=
  match upsAcc with
  | [] => .ok none
  | r :: rest =>
    match rowGet r colUType with
    | .error e => .error e
    | .ok ty =>
      if pyEqStr ty code then
        match rowGet r colUA1 with
        | .error e => .error e
        | .ok u1 =>
          let combinedUps := combineUps u1 (rowGetD r colUA2 (.str ""))
          if flexible_address_match (.str combined) (.str combinedUps) threshold065 then
            .ok (some r)
          else check_address_in_ups rest combined code
      else check_address_in_ups rest combined code

/-- `'Account Number_norm'`: `str(...)`, lower-cased, stripped. -/
def accNormOf (r : Row) : String := stripStr (lowerStr (pyStr (rowGetD r colAcc .nan)))

/-- `ups_grouped.get_group(acc_norm)` (and `acc_norm in ups_grouped.groups`
via emptiness): the UPS rows of one normalized account, in input order. -/
def upsGroup (ups : List Row) (acc : String) : List Row :=
  ups.filter (fun r => accNormOf r == acc)

/-- Column presence over a table; `df[col]` raises `KeyError` otherwise. -/
def colCheckB (t : List Row) (c : String) : Bool := t.all (fun r => hasKey r c)

/-- `ups_pickup_count = (ups_acc_df['Address Type'] == '02').sum()`. -/
def upsPickupCount (upsAcc : List Row) : Nat :=
  (upsAcc.filter (fun r => pyEqStr (rowGetD r colUType .nan) "02")).length

/-- `ups_acc_df[col].values[0]`: the column's value on the first row of the
account group. -/
def firstRowGet (upsAcc : List Row) (c : String) : Except String Cell :=
  match upsAcc with
  | [] => .error ("IndexError: " ++ c)
  | r :: _ => rowGet r c

/-- Result of processing one form row: rows appended to the matched,
unmatched and upload-template accumulators, and whether the row index was
added to `processed_form_indices`. -/
structure StepRes where
  matchedRows : List Row
  unmatchedRows : List Row
  templRows : List TRow
  processed : Bool
deriving DecidableEq, Repr

/-- The i-th (0-based) pickup address block: the four `.get(...)` fields
plus the combined f-string. -/
def pickupBlock (row : Row) (i : Nat) : PickupAddr :=
  let p := ["First", "Second", "Third"].getD i "" ++ " New Pick Up Address"
  let a1 := rowGetD row (p ++ " Line 1 (Address No., Industrial Park Name, etc)-In English Only") (.str "")
  let a2 := rowGetD row (p ++ " Line 2 (Street Name)-In English Only") (.str "")
  let a3 := rowGetD row (p ++ " Line 3 (Ward/Commune)-In English Only") (.str "")
  let city := rowGetD row (p ++ " City / Province") (.str "")
  ⟨a1, a2, a3, city, combine3 a1 a2 a3⟩

/-- The `for pu_addr in pickup_addrs:` matching loop: on the first pickup
with no UPS match the row goes unmatched (`break`); otherwise the matched
UPS rows are collected in order. -/
def pickupLoop (upsAcc : List Row) (row : Row) : List PickupAddr → Except String (Row ⊕ List Row)
  | [] => .ok (.inr [])
  | pu :: rest =>
    match check_address_in_ups upsAcc pu.combined "02" with
    | .error e => .error e
    | .ok none =>
      .ok (.inl (unmatchedOf row
        ("Pickup address not matched: " ++ pyStr pu.l1 ++ ", " ++ pyStr pu.l2)))
    | .ok (some m) =>
      match pickupLoop upsAcc row rest with
      | .error e => .error e
      | .ok (.inl u) => .ok (.inl u)
      | .ok (.inr ms) => .ok (.inr (m :: ms))

/-- `matched_dict[f"... UPS Matched Pickup Address"]` build: the value is
the matched row's Address Line 1, extended with `, {Address Line 2}` when
that column exists (string concatenation on the cell). -/
def upsMatchedAddr (u : Row) : Except String Cell :=
  match rowGet u colUA1 with
  | .error e => .error e
  | .ok u1 =>
    if hasKey u colUA2 then pyConcat u1 (", " ++ pyStr (rowGetD u colUA2 .nan))
    else .ok u1

/-- The `for i, pu_addr in enumerate(pickup_addrs, 1)` matched-dict loop of
the split branch. -/
def puDictFold (md0 : Row) (i : Nat) : List (PickupAddr × Row) → Except String Row
  | [] => .ok md0
  | (pu, pm) :: rest =>
    let name := ["First", "Second", "Third"].getD i ""
    let md := dictSet md0 (name ++ " New Pick Up Address Line 1 (Tone-free)") (remove_tones pu.l1)
    let md := dictSet md (name ++ " New Pick Up Address Line 2 (Tone-free)") (remove_tones pu.l2)
    let md := dictSet md (name ++ " New Pick Up Address Line 3 (Tone-free)") (remove_tones pu.l3)
    match upsMatchedAddr pm with
    | .error e => .error e
    | .ok v => puDictFold (dictSet md (name ++ " UPS Matched Pickup Address") v) (i + 1) rest

/-- The `is_same_billing == "yes"` branch of `process_files`: a single
unified address matched against the account's type-01 rows. -/
def stepYes (upsAcc : List Row) (row : Row) : Except String StepRes :=
  match rowGet row colNA1 with
  | .error e => .error e
  | .ok a1 =>
  match rowGet row colNA2 with
  | .error e => .error e
  | .ok a2 =>
  match rowGet row colNA3 with
  | .error e => .error e
  | .ok a3 =>
  match rowGet row colCity with
  | .error e => .error e
  | .ok city =>
  let contact := rowGetD row colContact (.str "")
  match check_address_in_ups upsAcc (combine3 a1 a2 a3) "01" with
  | .error e => .error e
  | .ok none =>
    .ok ⟨[], [unmatchedOf row "Billing address (type 01) not matched in UPS system"], [], false⟩
  | .ok (some u) =>
    let md := dictSet row "New Address Line 1 (Tone-free)" (remove_tones a1)
    let md := dictSet md "New Address Line 2 (Tone-free)" (remove_tones a2)
    let md := dictSet md "New Address Line 3 (Tone-free)" (remove_tones a3)
    match upsMatchedAddr u with
    | .error e => .error e
    | .ok v =>
    let md := dictSet md "UPS Matched Address" v
    -- the `for col in form_row.index: if ... and col not in matched_dict`
    -- loop is a no-op: to_dict() already holds every column of the row
    match rowGet u colACName with
    | .error e => .error e
    | .ok acn =>
    match rowGet u colPostal with
    | .error e => .error e
    | .ok postal =>
    match rowGet u colCountry with
    | .error e => .error e
    | .ok cc =>
    match rowGet u colACC with
    | .error e => .error e
    | .ok acc2 =>
      .ok ⟨[md], [],
        billingTemplate (rowGetD row colAcc .nan) acn postal cc acc2 contact a1 a2 a3 city,
        true⟩

/-- The split (non-"yes") branch of `process_files`: separate billing,
delivery and pickup addresses.  Note `billing_match` and `delivery_match`
are computed but only dereferenced — never tested for `None` — in the
matched path. -/
def stepNo (upsAcc : List Row) (row : Row) (upc : Nat) : Except String StepRes :=
  let b1 := rowGetD row colB1 (.str "")
  let b2 := rowGetD row colB2 (.str "")
  let b3 := rowGetD row colB3 (.str "")
  let bcity := rowGetD row colBCity (.str "")
  let d1 := rowGetD row colD1 (.str "")
  let d2 := rowGetD row colD2 (.str "")
  let d3 := rowGetD row colD3 (.str "")
  let dcity := rowGetD row colDCity (.str "")
  let pnum := pickupNumOf (rowGetD row colHowMany (.num 0))
  let pus := (List.range pnum.toNat).map (pickupBlock row)
  match check_address_in_ups upsAcc (combine3 b1 b2 b3) "03" with
  | .error e => .error e
  | .ok bm =>
  match check_address_in_ups upsAcc (combine3 d1 d2 d3) "13" with
  | .error e => .error e
  | .ok dm =>
  if pus.length != upc then
    .ok ⟨[], [unmatchedOf row
      ("Pickup address count mismatch: Forms=" ++ toString pus.length ++
        ", UPS=" ++ toString upc)], [], false⟩
  else
    match pickupLoop upsAcc row pus with
    | .error e => .error e
    | .ok (.inl unm) => .ok ⟨[], [unm], [], false⟩
    | .ok (.inr pms) =>
      let md := dictSet row "New Billing Address Line 1 (Tone-free)" (remove_tones b1)
      let md := dictSet md "New Billing Address Line 2 (Tone-free)" (remove_tones b2)
      let md := dictSet md "New Billing Address Line 3 (Tone-free)" (remove_tones b3)
      match bm with
      | none => .error "TypeError: 'NoneType' object is not subscriptable"
      | some bu =>
      match upsMatchedAddr bu with
      | .error e => .error e
      | .ok bv =>
      let md := dictSet md "UPS Matched Billing Address" bv
      let md := dictSet md "New Delivery Address Line 1 (Tone-free)" (remove_tones d1)
      let md := dictSet md "New Delivery Address Line 2 (Tone-free)" (remove_tones d2)
      let md := dictSet md "New Delivery Address Line 3 (Tone-free)" (remove_tones d3)
      match dm with
      | none => .error "TypeError: 'NoneType' object is not subscriptable"
      | some du =>
      match upsMatchedAddr du with
      | .error e => .error e
      | .ok dv =>
      let md := dictSet md "UPS Matched Delivery Address" dv
      match puDictFold md 0 (pus.zip pms) with
      | .error e => .error e
      | .ok md2 =>
      match firstRowGet upsAcc colACName with
      | .error e => .error e
      | .ok acn =>
      match firstRowGet upsAcc colPostal with
      | .error e => .error e
      | .ok postal =>
      match firstRowGet upsAcc colCountry with
      | .error e => .error e
      | .ok cc =>
      match firstRowGet upsAcc colACC with
      | .error e => .error e
      | .ok acc2 =>
        let acct := rowGetD row colAcc .nan
        let contact := rowGetD row colContact (.str "")
        .ok ⟨[md2], [],
          pus.map (pickupTemplate acct acn postal cc acc2 contact) ++
            billingTemplate acct acn postal cc acc2 contact b1 b2 b3 bcity ++
            [deliveryTemplate acct acn postal cc acc2 contact d1 d2 d3 dcity],
          true⟩

/-- One iteration of the `for idx, form_row in forms_df.iterrows()` loop. -/
def stepRow (ups : List Row) (row : Row) : Except String StepRes :=
  let isSame := lowerStr (stripStr (pyStr (rowGetD row colSame (.str ""))))
  let upsAcc := upsGroup ups (accNormOf row)
  if upsAcc.isEmpty then
    .ok ⟨[], [unmatchedOf row "Account Number not found in UPS data"], [], false⟩
  else
    if colCheckB upsAcc colUType then
      if isSame == "yes" then stepYes upsAcc row
      else stepNo upsAcc row (upsPickupCount upsAcc)
    else .error ("KeyError: " ++ colUType)

/-- The main loop of `process_files`, accumulating matched rows, unmatched
rows, upload-template rows, and `processed_form_indices`. -/
def mainLoop (ups : List Row) :
    List (Nat × Row) → Except String (List Row × List Row × List TRow × List Nat)
  | [] => .ok ([], [], [], [])
  | (idx, row) :: rest =>
    match stepRow ups row with
    | .error e => .error e
    | .ok res =>
      match mainLoop ups rest with
      | .error e => .error e
      | .ok (m, u, t, p) =>
        .ok (res.matchedRows ++ m, res.unmatchedRows ++ u, res.templRows ++ t,
          (if res.processed then [idx] else []) ++ p)

/-- Adding the `'Account Number_norm'` column to a row. -/
def addNormCol (r : Row) : Row := dictSet r "Account Number_norm" (.str (accNormOf r))

def enumerate (rs : List Row) : List (Nat × Row) := (List.range rs.length).zip rs

/-- `process_files(forms_df, ups_df)` from app.py: the two column
normalizations (which raise `KeyError` when `Account Number` is absent),
the main per-row loop, and the final `unmatched_not_processed` pass that
appends every form row whose index is not in `processed_form_indices` to
the unmatched output. -/
def process_files (forms ups : List Row) :
    Except String (List Row × List Row × List TRow) :=
  if !colCheckB ups colAcc then .error ("KeyError: " ++ colAcc)
  else if !colCheckB forms colAcc then .error ("KeyError: " ++ colAcc)
  else
    let ups' := ups.map addNormCol
    let forms' := forms.map addNormCol
    match mainLoop ups' (enumerate forms') with
    | .error e => .error e
    | .ok (m, u, t, p) =>
      let leftovers := (enumerate forms').filter (fun ir => !(p.contains ir.1))
      let extra := leftovers.map (fun ir =>
        unmatchedOf ir.2 "No matching address found or not processed")
      .ok (m, u ++ extra, t)

/-- Spec-comparison variant of `flexible_address_match` with the
containment signal (Case 2) deleted and everything else unchanged; used to
exhibit inputs decided by containment alone. -/
def flexible_match_no_containment (addr1 addr2 : Cell) (threshold : ℚ) : Bool :=
  let a1 := (clean_address addr1).toList
  let a2 := (clean_address addr2).toList
  if a1.isEmpty || a2.isEmpty then false
  else if a1 == a2 then true
  else
    let a1parts := ((splitComma a1).map stripL).filter (fun p => !p.isEmpty)
    let a2parts := ((splitComma a2).map stripL).filter (fun p => !p.isEmpty)
    if (!a1parts.isEmpty && !a2parts.isEmpty) &&
        (a1parts.all (fun p1 => a2parts.any (fun p2 => decide (mkRat 7 10 ≤ smRatio p1 p2))) ||
          a2parts.all (fun p2 => a1parts.any (fun p1 => decide (mkRat 7 10 ≤ smRatio p2 p1)))) then
      true
    else
      let comb1 := if a1parts.isEmpty then a1 else joinSpace a1parts
      let comb2 := if a2parts.isEmpty then a2 else joinSpace a2parts
      if threshold ≤ smRatio comb1 comb2 then true
      else
        let words1 := splitWs comb1
        let words2 := splitWs comb2
        if !words1.isEmpty && !words2.isEmpty then
          if subsetB words1 words2 || subsetB words2 words1 then true
          else
            let w1 := dedupL words1
            let w2 := dedupL words2
            let common := (w1.filter (fun x => w2.contains x)).length
            decide (mkRat 7 10 ≤ mkRat common (min w1.length w2.length))
        else false

/-- Row/upload counts of a `process_files` result (`none` when the run
raised). -/
def countsOf (r : Except String (List Row × List Row × List TRow)) : Option (Nat × Nat × Nat) :=
  match r with
  | .ok (m, u, t) => some (m.length, u.length, t.length)
  | .error _ => none

/-- The `'Unmatched Reason'` column of the unmatched output, in order. -/
def unmatchedReasonsOf (r : Except String (List Row × List Row × List TRow)) :
    Option (List Cell) :=
  match r with
  | .ok (_, u, _) => some (u.map (fun row => rowGetD row "Unmatched Reason" .nan))
  | .error _ => none

def c1Forms : List Row := [[(colAcc, .str "x")]]
def c1Ups : List Row := [[(colAcc, .str "zzz")]]

def c2Forms : List Row := [[(colAcc, .str "a"), (colSame, .str "no")]]
def c2Ups : List Row := [[(colAcc, .str "a"), (colUType, .str "03"), (colUA1, .str "xyz"),
  (colACName, .str "n"), (colPostal, .str "p"), (colCountry, .str "c"), (colACC, .str "c2")]]

def c5Forms : List Row := [[(colAcc, .str "a"), (colSame, .str "no"), (colHowMany, .str "two")]]
def c5Ups : List Row :=
  [[(colAcc, .str "a"), (colUType, .str "02"), (colUA1, .str "p one"),
    (colACName, .str "n"), (colPostal, .str "p"), (colCountry, .str "c"), (colACC, .str "c2")],
   [(colAcc, .str "a"), (colUType, .str "02"), (colUA1, .str "p two"),
    (colACName, .str "n"), (colPostal, .str "p"), (colCountry, .str "c"), (colACC, .str "c2")]]

def c6FormsBad : List Row := [[(colAcc, .str "a"), (colSame, .str "no"), (colHowMany, .str "abc")]]
def c6FormsZero : List Row := [[(colAcc, .str "a"), (colSame, .str "no"), (colHowMany, .str "0")]]
def c6Ups : List Row := [[(colAcc, .str "a"), (colUType, .str "02"), (colUA1, .str "xyz"),
  (colACName, .str "n"), (colPostal, .str "p"), (colCountry, .str "c"), (colACC, .str "c2")]]

def c9Forms : List Row := [[(colAcc, .str "x")]]
def c9Ups : List Row := [[(colAcc, .str "zzz")]]
def c9wForms : List Row := [[("Some Other Column", .str "v")]]
def c9wUps : List Row := [[(colAcc, .str "zzz")]]

def c7Row : Row :=
  [(colAcc, .str "a"), (colSame, .str "yes"), (colNA1, .str "123 Le Loi"),
   (colNA2, .str "Q1"), (colNA3, .str ""), (colCity, .str "HCM")]
def c7UpsAcc : List Row :=
  [[(colAcc, .str "a"), (colUType, .str "01"), (colUA1, .str "123 Le Loi, Q1"),
    (colACName, .str "n"), (colPostal, .str "p"), (colCountry, .str "c"), (colACC, .str "c2")]]
def c7Res : StepRes := (stepYes c7UpsAcc c7Row).toOption.getD ⟨[], [], [], false⟩

/-- A character fixed by every character-level stage of `clean_address`:
self-decomposing, not a combining mark, and its own lowercase. -/
def goodChar (c : Char) : Bool := decompCh c == [c] && !isMn c && toLowCh c == c

/-- A character that survives the punctuation stage unchanged: word
character, plain space, or comma. -/
def keptChar (c : Char) : Bool := isWordCh c || c == ' ' || c == ','

/-- No two adjacent whitespace characters. -/
def adjW (a b : Char) : Prop := ¬(isWs a = true ∧ isWs b = true)

/-- Additionally no whitespace directly after a comma. -/
def adjWC (a b : Char) : Prop := adjW a b ∧ ¬(a = ',' ∧ isWs b = true)

/-- Additionally no whitespace directly before a comma. -/
def adjFull (a b : Char) : Prop := adjWC a b ∧ ¬(isWs a = true ∧ b = ',')

def HeadOk (l : List Char) : Prop := ∀ c ∈ l.head?, isWs c = false

def LastOk (l : List Char) : Prop := ∀ c ∈ l.getLast?, isWs c = false

/-- The invariant characterizing fixed points of the `clean_address`
pipeline. -/
def CleanInv (l : List Char) : Prop :=
  (∀ c ∈ l, goodChar c = true ∧ keptChar c = true) ∧
    List.Chain' adjFull l ∧ HeadOk l ∧ LastOk l

/-- C1: the claim says `count(matched) + count(unmatched) =
count(submissions)` with no duplication.  Evaluating `process_files` at a
one-row submission table whose account is absent from the UPS table shows
the row is appended to the unmatched output twice (once with its specific
reason inside the loop, once more by the final not-processed pass):
0 matched + 2 unmatched for 1 submission. -/
theorem C1_failing_eval :
    c1Forms.length = 1 ∧
    countsOf (process_files c1Forms c1Ups) = some (0, 2, 0) ∧
    unmatchedReasonsOf (process_files c1Forms c1Ups) =
      some [.str "Account Number not found in UPS data",
            .str "No matching address found or not processed"] := by
  refine ⟨rfl, ?_, ?_⟩ <;> decide

/-- C2: the claim says an unmatched billing/delivery role degrades the one
submission to UNMATCHED with a role-naming reason and the run continues.
Evaluating `process_files` on a split-branch submission whose billing
address has no matching candidate shows the run instead aborts with a
`TypeError` (`billing_match` is `None` and is dereferenced unchecked). -/
theorem C2_typeerror_eval :
    process_files c2Forms c2Ups =
      .error "TypeError: 'NoneType' object is not subscriptable" := rfl

/-- C9 counterexample: a UPS table lacking the required `Address Type`
column, with a submission whose account is unknown: no schema failure is
surfaced at all — the run completes and produces unmatched rows, refuting
"surfaced before any per-row reconciliation begins and no row is
produced". -/
theorem C9_counterexample :
    colCheckB c9Ups colUType = false ∧
    countsOf (process_files c9Forms c9Ups) = some (0, 2, 0) := by
  refine ⟨?_, ?_⟩ <;> decide

/-- C9 amended: only the `Account Number` column is validated before the
loop — its absence (in either table, UPS checked first) fails the run
with a `KeyError` before any row is classified; all other required fields
are only accessed during per-row reconciliation. -/
theorem C9_account_number_fail_fast (forms ups : List Row) :
    (colCheckB ups colAcc = false →
      process_files forms ups = .error ("KeyError: " ++ colAcc)) ∧
    (colCheckB ups colAcc = true → colCheckB forms colAcc = false →
      process_files forms ups = .error ("KeyError: " ++ colAcc)) := by
  constructor
  · intro h
    simp [process_files, h]
  · intro h1 h2
    simp [process_files, h1, h2]

theorem C9_account_number_fail_fast_witness :
    colCheckB c9wForms colAcc = false ∧
    process_files c9wForms c9wUps = .error ("KeyError: " ++ colAcc) :=
  ⟨by decide, (C9_account_number_fail_fast c9wForms c9wUps).2 (by decide) (by decide)⟩

/-- C10: a cell whose cleaned form is empty — which includes every
non-string cell, since `clean_address` maps numbers and NaN to `""` —
never matches anything at any threshold. -/
theorem C10_empty_never_matches :
    (∀ q : ℚ, clean_address (.num q) = "") ∧
    clean_address .nan = "" ∧
    ∀ (a b : Cell) (t : ℚ),
      (clean_address a = "" ∨ clean_address b = "") →
      flexible_address_match a b t = false := by
  refine ⟨fun _ => rfl, rfl, fun a b t h => ?_⟩
  unfold flexible_address_match
  rcases h with h | h <;> simp [h]

theorem C10_empty_never_matches_witness :
    (clean_address .nan = "" ∨ clean_address (.str "abc") = "") ∧
    flexible_address_match .nan (.str "abc") threshold065 = false :=
  ⟨Or.inl rfl, C10_empty_never_matches.2.2 .nan (.str "abc") threshold065 (Or.inl rfl)⟩

set_option maxHeartbeats 2000000 in
/-- C8: threshold monotonicity of the scorer — the threshold only appears
in the `ratio >= threshold` signal as a lower bound, so lowering it can
only keep `is_match` true. -/
theorem C8_threshold_monotone (a b : Cell) (t1 t2 : ℚ) (hlt : t2 < t1)
    (hm : flexible_address_match a b t1 = true) :
    flexible_address_match a b t2 = true := by
  simp only [flexible_address_match] at hm ⊢
  split_ifs at hm ⊢ <;>
    first
      | rfl
      | exact hm
      | (exact absurd (le_trans (le_of_lt hlt) ‹_›) ‹_›)

theorem C8_threshold_monotone_witness :
    ((mkRat 1 2 : ℚ) < threshold065 ∧
      flexible_address_match (.str "ab cd") (.str "ab ce") threshold065 = true) ∧
    flexible_address_match (.str "ab cd") (.str "ab ce") (mkRat 1 2) = true :=
  ⟨⟨by decide, by decide⟩,
    C8_threshold_monotone (.str "ab cd") (.str "ab ce") threshold065 (mkRat 1 2)
      (by decide) (by decide)⟩


/-- C3 counterexample: the containment check has no minimum-length guard.
For a normalized string of length 1 (at or below any positive minimum
length), `is_match` is true, and deleting only the containment signal
makes it false — containment alone decides the pair. -/
theorem C3_counterexample :
    (clean_address (.str "a")).length = 1 ∧
    flexible_address_match (.str "a") (.str "abcdefghij klmnop") threshold065 = true ∧
    flexible_match_no_containment (.str "a") (.str "abcdefghij klmnop") threshold065 = false := by
  refine ⟨rfl, ?_, ?_⟩ <;> decide

/-- C3 amended: the containment signal is evaluated unconditionally —
whenever both cleaned strings are non-empty and one is a substring of the
other, `flexible_address_match` returns true at every threshold,
regardless of the strings' lengths. -/
theorem C3_containment_unguarded (x y : Cell) (t : ℚ)
    (hx : (clean_address x).toList ≠ [])
    (hy : (clean_address y).toList ≠ [])
    (h : containsSub (clean_address y).toList (clean_address x).toList = true ∨
      containsSub (clean_address x).toList (clean_address y).toList = true) :
    flexible_address_match x y t = true := by
  unfold flexible_address_match
  simp only []
  have hc0 : ¬(((clean_address x).toList.isEmpty ||
      (clean_address y).toList.isEmpty) = true) := by
    simp only [List.isEmpty_iff, Bool.or_eq_true]
    exact fun hc => hc.elim hx hy
  rw [if_neg hc0]
  by_cases he : ((clean_address x).toList == (clean_address y).toList) = true
  · rw [if_pos he]
  · rw [if_neg he, if_pos (Bool.or_eq_true _ _ |>.mpr h)]

theorem C3_containment_unguarded_witness :
    ((clean_address (.str "a")).toList ≠ [] ∧ (clean_address (.str "ab")).toList ≠ [] ∧
      containsSub (clean_address (.str "ab")).toList (clean_address (.str "a")).toList = true) ∧
    flexible_address_match (.str "a") (.str "ab") threshold065 = true :=
  ⟨⟨by decide, by decide, by decide⟩,
    C3_containment_unguarded (.str "a") (.str "ab") threshold065
      (by decide) (by decide) (Or.inl (by decide))⟩

/-- C5 counterexample: the claim says the word-number "two" yields two
pickup records.  `int("two")` raises and the `except` clause defaults the
count to 0: in a run whose UPS side has two pickup rows, the submission
with count field "two" is reported as `Forms=0, UPS=2` — zero pickup
records were read. -/
theorem C5_counterexample :
    pickupNumOf (.str "two") = 0 ∧
    unmatchedReasonsOf (process_files c5Forms c5Ups) =
      some [.str "Pickup address count mismatch: Forms=0, UPS=2",
            .str "No matching address found or not processed"] := by
  refine ⟨rfl, ?_⟩
  decide

/-- C5 amended: the pickup count is read by integer conversion only —
integer-parsing values are accepted and capped at 3, while any
non-integer value (including the word-numbers "one"/"two"/"three")
defaults to zero pickups. -/
theorem C5_pickup_count_numeric_only (c : Cell) :
    (∀ n : Int, pyIntCell c = some n → pickupNumOf c = if n > 3 then 3 else n) ∧
    (pyIntCell c = none → pickupNumOf c = 0) := by
  constructor
  · intro n h
    simp [pickupNumOf, h]
  · intro h
    simp [pickupNumOf, h]

theorem C5_pickup_count_numeric_only_witness :
    (pyIntCell (.str "7") = some 7 ∧
      pickupNumOf (.str "7") = if (7 : Int) > 3 then 3 else 7) ∧
    (pyIntCell (.str "two") = none ∧ pickupNumOf (.str "two") = 0) :=
  ⟨⟨by decide, (C5_pickup_count_numeric_only (.str "7")).1 7 (by decide)⟩,
    ⟨by decide, (C5_pickup_count_numeric_only (.str "two")).2 (by decide)⟩⟩

/-- C6 counterexample: a malformed pickup-count value surfaces no distinct
reason — the run with count "abc" produces exactly the same unmatched
reasons as the run with a genuine count of "0", namely the generic
pickup-count mismatch (plus the final not-processed duplicate), so the
malformed case is not distinguishable from the other unmatched reasons. -/
theorem C6_counterexample :
    pyIntCell (.str "abc") = none ∧
    unmatchedReasonsOf (process_files c6FormsBad c6Ups) =
      unmatchedReasonsOf (process_files c6FormsZero c6Ups) ∧
    unmatchedReasonsOf (process_files c6FormsBad c6Ups) =
      some [.str "Pickup address count mismatch: Forms=0, UPS=1",
            .str "No matching address found or not processed"] := by
  refine ⟨rfl, ?_, ?_⟩ <;> decide

/-- C6 amended: a non-numeric, non-recognized pickup-count value does not
crash the run — the count defaults to zero pickups — but the submission
surfaces only the generic unmatched reasons, with no distinct
malformed-count reason. -/
theorem C6_default_zero_no_distinct_reason :
    (∀ c, pyIntCell c = none → pickupNumOf c = 0) ∧
    countsOf (process_files c6FormsBad c6Ups) = some (0, 2, 0) := by
  refine ⟨fun c h => ?_, by decide⟩
  simp [pickupNumOf, h]

theorem C6_default_zero_no_distinct_reason_witness :
    pyIntCell (.str "abc") = none ∧ pickupNumOf (.str "abc") = 0 :=
  ⟨by decide, C6_default_zero_no_distinct_reason.1 (.str "abc") (by decide)⟩

/-- C7: upload-template expansion for matched submissions.  The billing
(or unified, billing-equivalent) address always fans out into exactly
three rows with identical address fields and distinct invoice-option
codes "1"/"2"/"6"; delivery and pickup rows carry no invoice-option code;
a matched unified-branch submission contributes exactly these 3 rows, and
a matched split-branch submission with `p` pickups contributes
`p + 4` rows (p pickup rows, 3 billing rows, 1 delivery row, in that
order). -/
theorem C7_upload_expansion :
    (∀ acct acn postal cc acc2 contact a1 a2 a3 city,
      (billingTemplate acct acn postal cc acc2 contact a1 a2 a3 city).map
          (fun r => r.invoiceOption) = ["1", "2", "6"] ∧
      (∀ r ∈ billingTemplate acct acn postal cc acc2 contact a1 a2 a3 city,
        r.acAddressType = r.invoiceOption ∧ r.addressLine1 = remove_tones a1 ∧
        r.addressLine2 = remove_tones a2 ∧ r.addressLine22 = remove_tones a3 ∧
        r.city = city)) ∧
    (∀ acct acn postal cc acc2 contact pu,
      (pickupTemplate acct acn postal cc acc2 contact pu).invoiceOption = "") ∧
    (∀ acct acn postal cc acc2 contact d1 d2 d3 city,
      (deliveryTemplate acct acn postal cc acc2 contact d1 d2 d3 city).invoiceOption = "") ∧
    (∀ upsAcc row r, stepYes upsAcc row = .ok r → r.processed = true →
      ∃ acct acn postal cc acc2 contact a1 a2 a3 city,
        r.templRows = billingTemplate acct acn postal cc acc2 contact a1 a2 a3 city ∧
        r.templRows.length = 3) ∧
    (∀ upsAcc row upc r, stepNo upsAcc row upc = .ok r → r.processed = true →
      ∃ acct acn postal cc acc2 contact, ∃ pus : List PickupAddr,
        ∃ b1 b2 b3 bcity d1 d2 d3 dcity,
        r.templRows =
          pus.map (pickupTemplate acct acn postal cc acc2 contact) ++
            billingTemplate acct acn postal cc acc2 contact b1 b2 b3 bcity ++
            [deliveryTemplate acct acn postal cc acc2 contact d1 d2 d3 dcity] ∧
        r.templRows.length = pus.length + 4) := by
  refine ⟨?_, ?_, ?_, ?_, ?_⟩
  · intro acct acn postal cc acc2 contact a1 a2 a3 city
    refine ⟨rfl, ?_⟩
    intro r hr
    simp only [billingTemplate, List.mem_map] at hr
    obtain ⟨code, _, rfl⟩ := hr
    exact ⟨rfl, rfl, rfl, rfl, rfl⟩
  · intro acct acn postal cc acc2 contact pu
    rfl
  · intro acct acn postal cc acc2 contact d1 d2 d3 city
    rfl
  · intro upsAcc row r h hp
    simp only [stepYes] at h
    split at h
    · exact absurd h (by simp)
    split at h
    · exact absurd h (by simp)
    split at h
    · exact absurd h (by simp)
    split at h
    · exact absurd h (by simp)
    split at h
    · exact absurd h (by simp)
    · rw [Except.ok.injEq] at h
      subst h
      simp at hp
    · split at h
      · exact absurd h (by simp)
      split at h
      · exact absurd h (by simp)
      split at h
      · exact absurd h (by simp)
      split at h
      · exact absurd h (by simp)
      split at h
      · exact absurd h (by simp)
      rw [Except.ok.injEq] at h
      subst h
      exact ⟨_, _, _, _, _, _, _, _, _, _, rfl, by simp [billingTemplate]⟩
  · intro upsAcc row upc r h hp
    simp only [stepNo] at h
    split at h
    · exact absurd h (by simp)
    split at h
    · exact absurd h (by simp)
    split at h
    · rw [Except.ok.injEq] at h; subst h; simp at hp
    split at h
    · exact absurd h (by simp)
    · rw [Except.ok.injEq] at h; subst h; simp at hp
    · split at h
      · exact absurd h (by simp)
      split at h
      · exact absurd h (by simp)
      split at h
      · exact absurd h (by simp)
      split at h
      · exact absurd h (by simp)
      split at h
      · exact absurd h (by simp)
      split at h
      · exact absurd h (by simp)
      split at h
      · exact absurd h (by simp)
      split at h
      · exact absurd h (by simp)
      split at h
      · exact absurd h (by simp)
      rw [Except.ok.injEq] at h
      subst h
      refine ⟨_, _, _, _, _, _, _, _, _, _, _, _, _, _, _, rfl, ?_⟩
      simp [billingTemplate]

theorem C7_upload_expansion_witness :
    (stepYes c7UpsAcc c7Row = .ok c7Res ∧ c7Res.processed = true) ∧
    (∃ acct acn postal cc acc2 contact a1 a2 a3 city,
      c7Res.templRows = billingTemplate acct acn postal cc acc2 contact a1 a2 a3 city ∧
      c7Res.templRows.length = 3) :=
  ⟨⟨rfl, rfl⟩, C7_upload_expansion.2.2.2.1 c7UpsAcc c7Row c7Res rfl rfl⟩

theorem mem_of_lookup_char {β : Type} {l : List (Char × β)} {k : Char} {b : β}
    (h : l.lookup k = some b) : (k, b) ∈ l := by
  obtain ⟨l₁, l₂, rfl, -⟩ := List.lookup_eq_some_iff.mp h
  exact List.mem_append.mpr (Or.inr (List.mem_cons_self _ _))

/-- Every character produced by the decomposition table is either a
combining mark or fixed by decomposition. -/
theorem decompTable_closed :
    decompTable.all (fun kv => kv.2.all (fun c => isMn c || decompCh c == [c])) = true := by
  decide

/-- Every lowercase image of a decomposition-fixed character is itself
fixed by all three character-level stages. -/
theorem lowTable_closed :
    lowTable.all (fun kv => !(decompCh kv.1 == [kv.1]) || goodChar kv.2) = true := by
  decide

theorem mem_decompCh_good {c0 c : Char} (hc : c ∈ decompCh c0) (hmn : isMn c = false) :
    decompCh c = [c] := by
  cases h : decompTable.lookup c0 with
  | none =>
    have h0 : decompCh c0 = [c0] := by simp [decompCh, h]
    rw [h0, List.mem_singleton] at hc
    subst hc
    exact h0
  | some vs =>
    have hvs : c ∈ vs := by
      have : decompCh c0 = vs := by simp [decompCh, h]
      rwa [this] at hc
    have hall := List.all_eq_true.mp
      (List.all_eq_true.mp decompTable_closed _ (mem_of_lookup_char h)) c hvs
    rcases (Bool.or_eq_true _ _).mp hall with h3 | h3
    · rw [hmn] at h3
      exact absurd h3 (by simp)
    · exact eq_of_beq h3

theorem goodChar_toLowCh {c : Char} (h1 : decompCh c = [c]) (h2 : isMn c = false) :
    goodChar (toLowCh c) = true := by
  cases h : lowTable.lookup c with
  | none =>
    have h0 : toLowCh c = c := by simp [toLowCh, h]
    rw [h0]
    simp [goodChar, h1, h2, h0]
  | some v =>
    have hv : toLowCh c = v := by simp [toLowCh, h]
    rw [hv]
    have hall := List.all_eq_true.mp lowTable_closed _ (mem_of_lookup_char h)
    rcases (Bool.or_eq_true _ _).mp hall with h3 | h3
    · rw [Bool.not_eq_true'] at h3
      exact absurd (by simp [h1] : (decompCh c == [c]) = true) (by simp [h3])
    · exact h3

theorem removeTones_chars {l : List Char} {c : Char} (h : c ∈ removeTonesL l) :
    decompCh c = [c] ∧ isMn c = false := by
  unfold removeTonesL at h
  rw [List.mem_filter] at h
  obtain ⟨hmem, hmn⟩ := h
  rw [List.mem_flatMap] at hmem
  obtain ⟨c0, _, hc⟩ := hmem
  have hmn' : isMn c = false := by simpa using hmn
  exact ⟨mem_decompCh_good hc hmn', hmn'⟩

theorem lower_removeTones_good {l : List Char} {c : Char}
    (h : c ∈ lowerL (removeTonesL l)) : goodChar c = true := by
  rw [lowerL, List.mem_map] at h
  obtain ⟨c0, hc0, rfl⟩ := h
  obtain ⟨h1, h2⟩ := removeTones_chars hc0
  exact goodChar_toLowCh h1 h2

theorem punct_chars {m : List Char} (hm : ∀ c ∈ m, goodChar c = true) :
    ∀ c ∈ punctL m, goodChar c = true ∧ (isWordCh c || isWs c || c == ',') = true := by
  intro c hc
  rw [punctL, List.mem_map] at hc
  obtain ⟨c0, hc0, heq⟩ := hc
  by_cases h : (isWordCh c0 || isWs c0 || c0 == ',') = true
  · rw [if_pos h] at heq
    subst heq
    exact ⟨hm c0 hc0, h⟩
  · rw [if_neg h] at heq
    subst heq
    exact ⟨by decide, by decide⟩

theorem bnot_of_not {b : Bool} (h : ¬(b = true)) : b = false := by
  cases b
  · rfl
  · exact absurd rfl h

theorem collapseGo_mem {m : List Char} {b : Bool} {c : Char} (h : c ∈ collapseGo b m) :
    (c ∈ m ∧ isWs c = false) ∨ c = ' ' := by
  induction m generalizing b with
  | nil => simp [collapseGo] at h
  | cons x t ih =>
    rw [collapseGo] at h
    by_cases hx : isWs x = true
    · rw [if_pos hx] at h
      cases b with
      | true =>
        rcases ih h with ⟨h1, h2⟩ | h1
        · exact Or.inl ⟨List.mem_cons_of_mem _ h1, h2⟩
        · exact Or.inr h1
      | false =>
        simp only [Bool.false_eq_true, if_false] at h
        rcases List.mem_cons.mp h with rfl | h1
        · exact Or.inr rfl
        · rcases ih h1 with ⟨h2, h3⟩ | h2
          · exact Or.inl ⟨List.mem_cons_of_mem _ h2, h3⟩
          · exact Or.inr h2
    · rw [if_neg hx] at h
      rcases List.mem_cons.mp h with rfl | h1
      · exact Or.inl ⟨List.mem_cons_self _ _, bnot_of_not hx⟩
      · rcases ih h1 with ⟨h2, h3⟩ | h2
        · exact Or.inl ⟨List.mem_cons_of_mem _ h2, h3⟩
        · exact Or.inr h2

theorem collapseGo_true_head {m : List Char} :
    ∀ c ∈ (collapseGo true m).head?, isWs c = false := by
  induction m with
  | nil => simp [collapseGo]
  | cons x t ih =>
    rw [collapseGo]
    by_cases hx : isWs x = true
    · rw [if_pos hx, if_pos rfl]
      exact ih
    · rw [if_neg hx]
      intro c hc
      rw [List.head?_cons, Option.mem_some_iff] at hc
      subst hc
      exact bnot_of_not hx

theorem collapseGo_chain {m : List Char} : ∀ b, List.Chain' adjW (collapseGo b m) := by
  induction m with
  | nil => intro b; simp [collapseGo]
  | cons x t ih =>
    intro b
    rw [collapseGo]
    by_cases hx : isWs x = true
    · rw [if_pos hx]
      cases b with
      | true => exact ih true
      | false =>
        simp only [Bool.false_eq_true, if_false]
        rw [List.chain'_cons']
        refine ⟨fun y hy => ?_, ih true⟩
        have hys := collapseGo_true_head y hy
        exact fun hand => by rw [hys] at hand; exact absurd hand.2 (by simp)
    · rw [if_neg hx]
      rw [List.chain'_cons']
      refine ⟨fun y hy => ?_, ih false⟩
      exact fun hand => by rw [bnot_of_not hx] at hand; exact absurd hand.1 (by simp)

theorem dropWhile_head_not {p : Char → Bool} {l : List Char} :
    ∀ c ∈ (l.dropWhile p).head?, p c = false := by
  induction l with
  | nil => simp
  | cons x t ih =>
    rw [List.dropWhile_cons]
    by_cases hx : p x = true
    · rw [if_pos hx]
      exact ih
    · rw [if_neg hx]
      intro c hc
      rw [List.head?_cons, Option.mem_some_iff] at hc
      subst hc
      exact bnot_of_not hx

theorem chain'_of_suffix {R : Char → Char → Prop} {l m : List Char}
    (hs : m <:+ l) (h : List.Chain' R l) : List.Chain' R m := by
  obtain ⟨pre, rfl⟩ := hs
  exact (List.chain'_append.mp h).2.1

theorem adjW_symm {a b : Char} (h : adjW a b) : adjW b a := fun hand => h ⟨hand.2, hand.1⟩

theorem chain'_adjW_reverse {l : List Char} (h : List.Chain' adjW l) :
    List.Chain' adjW l.reverse :=
  List.chain'_reverse.mpr (h.imp fun _ _ hr => adjW_symm hr)

theorem stripL_mem {l : List Char} {c : Char} (h : c ∈ stripL l) : c ∈ l := by
  unfold stripL at h
  rw [List.mem_reverse] at h
  have h1 := (List.dropWhile_suffix isWs).mem h
  rw [List.mem_reverse] at h1
  exact (List.dropWhile_suffix isWs).mem h1

theorem stripL_chain {l : List Char} (h : List.Chain' adjW l) :
    List.Chain' adjW (stripL l) := by
  unfold stripL
  exact chain'_adjW_reverse
    (chain'_of_suffix (List.dropWhile_suffix isWs)
      (chain'_adjW_reverse (chain'_of_suffix (List.dropWhile_suffix isWs) h)))

theorem stripL_last (l : List Char) : LastOk (stripL l) := by
  intro c hc
  unfold stripL at hc
  rw [List.getLast?_reverse] at hc
  exact dropWhile_head_not c hc

theorem stripL_head (l : List Char) : HeadOk (stripL l) := by
  intro c hc
  unfold stripL at hc
  rw [List.head?_reverse] at hc
  obtain ⟨pre, hpre⟩ := List.dropWhile_suffix (l := (l.dropWhile isWs).reverse) isWs
  have h2 : c ∈ ((l.dropWhile isWs).reverse).getLast? := by
    rw [← hpre, List.getLast?_append]
    rw [Option.mem_def] at hc ⊢
    rw [hc]
    rfl
  rw [List.getLast?_reverse] at h2
  exact dropWhile_head_not c h2

theorem subCommaWsGo_mem {m : List Char} {b : Bool} {c : Char}
    (h : c ∈ subCommaWsGo b m) : c ∈ m := by
  induction m generalizing b with
  | nil => simp [subCommaWsGo] at h
  | cons x t ih =>
    rw [subCommaWsGo] at h
    by_cases h1 : (b && isWs x) = true
    · rw [if_pos h1] at h
      exact List.mem_cons_of_mem _ (ih h)
    · rw [if_neg h1] at h
      by_cases h2 : (x == ',') = true
      · rw [if_pos h2] at h
        rcases List.mem_cons.mp h with rfl | h3
        · exact (eq_of_beq h2) ▸ List.mem_cons_self _ _
        · exact List.mem_cons_of_mem _ (ih h3)
      · rw [if_neg h2] at h
        rcases List.mem_cons.mp h with rfl | h3
        · exact List.mem_cons_self _ _
        · exact List.mem_cons_of_mem _ (ih h3)

theorem subCommaWsGo_true_head {m : List Char} :
    ∀ c ∈ (subCommaWsGo true m).head?, isWs c = false := by
  induction m with
  | nil => simp [subCommaWsGo]
  | cons x t ih =>
    rw [subCommaWsGo]
    by_cases h1 : (true && isWs x) = true
    · rw [if_pos h1]
      exact ih
    · rw [if_neg h1]
      have hx : isWs x = false := by
        revert h1
        cases isWs x <;> simp
      by_cases h2 : (x == ',') = true
      · rw [if_pos h2]
        intro c hc
        rw [List.head?_cons, Option.mem_some_iff] at hc
        subst hc
        decide
      · rw [if_neg h2]
        intro c hc
        rw [List.head?_cons, Option.mem_some_iff] at hc
        subst hc
        exact hx

theorem subCommaWsGo_false_head {m : List Char} :
    ∀ c ∈ (subCommaWsGo false m).head?, c ∈ m.head? := by
  cases m with
  | nil => simp [subCommaWsGo]
  | cons x t =>
    rw [subCommaWsGo]
    simp only [Bool.false_and, Bool.false_eq_true, if_false]
    by_cases h2 : (x == ',') = true
    · rw [if_pos h2]
      intro c hc
      rw [List.head?_cons, Option.mem_some_iff] at hc
      subst hc
      rw [List.head?_cons, Option.mem_some_iff]
      exact eq_of_beq h2
    · rw [if_neg h2]
      intro c hc
      exact hc

theorem subCommaWsGo_chain {m : List Char} (hm : List.Chain' adjW m) :
    ∀ b, List.Chain' adjWC (subCommaWsGo b m) := by
  induction m with
  | nil => intro b; simp [subCommaWsGo]
  | cons x t ih =>
    intro b
    obtain ⟨hrel, hmt⟩ := List.chain'_cons'.mp hm
    rw [subCommaWsGo]
    by_cases h1 : (b && isWs x) = true
    · rw [if_pos h1]
      exact ih hmt true
    · rw [if_neg h1]
      by_cases h2 : (x == ',') = true
      · rw [if_pos h2]
        rw [List.chain'_cons']
        refine ⟨fun y hy => ?_, ih hmt true⟩
        have hy' := subCommaWsGo_true_head y hy
        exact ⟨fun hand => by rw [hy'] at hand; exact absurd hand.2 (by simp),
          fun hand => by rw [hy'] at hand; exact absurd hand.2 (by simp)⟩
      · rw [if_neg h2]
        rw [List.chain'_cons']
        refine ⟨fun y hy => ?_, ih hmt false⟩
        have hy' := subCommaWsGo_false_head y hy
        refine ⟨hrel y hy', fun hand => h2 ?_⟩
        rw [hand.1]
        rfl

theorem subCommaWsGo_false_ne_nil {x : Char} {t : List Char} :
    subCommaWsGo false (x :: t) ≠ [] := by
  rw [subCommaWsGo]
  simp only [Bool.false_and, Bool.false_eq_true, if_false]
  by_cases h2 : (x == ',') = true
  · rw [if_pos h2]
    simp
  · rw [if_neg h2]
    simp

theorem subCommaWsGo_last {m : List Char} (hl : LastOk m) :
    ∀ b, LastOk (subCommaWsGo b m) := by
  induction m with
  | nil => intro b; simp [subCommaWsGo, LastOk]
  | cons x t ih =>
    intro b
    rw [subCommaWsGo]
    by_cases h1 : (b && isWs x) = true
    · rw [if_pos h1]
      cases t with
      | nil =>
        have : isWs x = false := hl x (by simp [List.getLast?_singleton])
        rw [this] at h1
        simp at h1
      | cons y ts =>
        exact ih (fun c hc => hl c (by rwa [List.getLast?_cons_cons])) true
    · rw [if_neg h1]
      by_cases h2 : (x == ',') = true
      · rw [if_pos h2]
        intro c hc
        cases hG : subCommaWsGo true t with
        | nil =>
          rw [hG, List.getLast?_singleton, Option.mem_some_iff] at hc
          rw [← hc]
          decide
        | cons g gs =>
          rw [hG, List.getLast?_cons_cons] at hc
          cases t with
          | nil => rw [subCommaWsGo] at hG; exact absurd hG (by simp)
          | cons y ts =>
            exact ih (fun d hd => hl d (by rwa [List.getLast?_cons_cons])) true c
              (by rw [hG]; exact hc)
      · rw [if_neg h2]
        intro c hc
        cases hG : subCommaWsGo false t with
        | nil =>
          rw [hG, List.getLast?_singleton, Option.mem_some_iff] at hc
          rw [← hc]
          cases t with
          | nil => exact hl x (by simp [List.getLast?_singleton])
          | cons y ts => exact absurd hG subCommaWsGo_false_ne_nil
        | cons g gs =>
          rw [hG, List.getLast?_cons_cons] at hc
          cases t with
          | nil => rw [subCommaWsGo] at hG; exact absurd hG (by simp)
          | cons y ts =>
            exact ih (fun d hd => hl d (by rwa [List.getLast?_cons_cons])) false c
              (by rw [hG]; exact hc)

theorem subWsCommaGo_mem {m pend : List Char} {c : Char}
    (h : c ∈ subWsCommaGo pend m) : c ∈ pend ∨ c ∈ m := by
  induction m generalizing pend with
  | nil => exact Or.inl (by simpa [subWsCommaGo] using h)
  | cons x t ih =>
    rw [subWsCommaGo] at h
    by_cases h1 : isWs x = true
    · rw [if_pos h1] at h
      rcases ih h with h2 | h2
      · rcases List.mem_append.mp h2 with h3 | h3
        · exact Or.inl h3
        · exact Or.inr (List.mem_cons.mpr (Or.inl (List.mem_singleton.mp h3)))
      · exact Or.inr (List.mem_cons_of_mem _ h2)
    · rw [if_neg h1] at h
      by_cases h2 : (x == ',') = true
      · rw [if_pos h2] at h
        rcases List.mem_cons.mp h with rfl | h3
        · exact Or.inr (List.mem_cons.mpr (Or.inl (eq_of_beq h2).symm))
        · rcases ih h3 with h4 | h4
          · exact absurd h4 (List.not_mem_nil c)
          · exact Or.inr (List.mem_cons_of_mem _ h4)
      · rw [if_neg h2] at h
        rcases List.mem_append.mp h with h3 | h3
        · exact Or.inl h3
        · rcases List.mem_cons.mp h3 with rfl | h4
          · exact Or.inr (List.mem_cons_self _ _)
          · rcases ih h4 with h5 | h5
            · exact absurd h5 (List.not_mem_nil c)
            · exact Or.inr (List.mem_cons_of_mem _ h5)

theorem subWsCommaGo_eq_nil {m pend : List Char}
    (h : subWsCommaGo pend m = []) : pend = [] ∧ m = [] := by
  induction m generalizing pend with
  | nil => exact ⟨by simpa [subWsCommaGo] using h, rfl⟩
  | cons x t ih =>
    rw [subWsCommaGo] at h
    by_cases h1 : isWs x = true
    · rw [if_pos h1] at h
      have := (ih h).1
      simp at this
    · rw [if_neg h1] at h
      by_cases h2 : (x == ',') = true
      · rw [if_pos h2] at h
        simp at h
      · rw [if_neg h2] at h
        rcases List.append_eq_nil.mp h with ⟨-, h3⟩
        simp at h3

theorem subWsCommaGo_head {m : List Char} (hm : ∀ c ∈ m.head?, isWs c = false) :
    ∀ c ∈ (subWsCommaGo [] m).head?, isWs c = false := by
  cases m with
  | nil => simp [subWsCommaGo]
  | cons x t =>
    have hx : isWs x = false := hm x (by simp)
    rw [subWsCommaGo, if_neg (by simp [hx])]
    by_cases h2 : (x == ',') = true
    · rw [if_pos h2]
      intro c hc
      rw [List.head?_cons, Option.mem_some_iff] at hc
      rw [← hc]
      decide
    · rw [if_neg h2]
      intro c hc
      rw [List.nil_append, List.head?_cons, Option.mem_some_iff] at hc
      rw [← hc]
      exact hx

theorem subWsCommaGo_last {m : List Char} (hl : LastOk m) :
    ∀ pend : List Char, (m = [] → LastOk pend) → LastOk (subWsCommaGo pend m) := by
  induction m with
  | nil => exact fun pend hp => by simpa [subWsCommaGo] using hp rfl
  | cons x t ih =>
    intro pend hp
    rw [subWsCommaGo]
    by_cases h1 : isWs x = true
    · rw [if_pos h1]
      cases t with
      | nil =>
        have : isWs x = false := hl x (by simp [List.getLast?_singleton])
        rw [this] at h1
        simp at h1
      | cons y ts =>
        exact ih (fun c hc => hl c (by rwa [List.getLast?_cons_cons]))
          (pend ++ [x]) (fun hcontra => by simp at hcontra)
    · rw [if_neg h1]
      by_cases h2 : (x == ',') = true
      · rw [if_pos h2]
        intro c hc
        cases hG : subWsCommaGo [] t with
        | nil =>
          rw [hG, List.getLast?_singleton, Option.mem_some_iff] at hc
          rw [← hc]
          decide
        | cons g gs =>
          rw [hG, List.getLast?_cons_cons] at hc
          cases t with
          | nil => rw [subWsCommaGo] at hG; exact absurd hG (by simp)
          | cons y ts =>
            exact ih (fun d hd => hl d (by rwa [List.getLast?_cons_cons])) []
              (fun hcontra => by simp at hcontra) c (by rw [hG]; exact hc)
      · rw [if_neg h2]
        intro c hc
        rw [List.getLast?_append] at hc
        cases hG : subWsCommaGo [] t with
        | nil =>
          rw [hG, List.getLast?_singleton] at hc
          have hor : (Option.some x).or pend.getLast? = some x := rfl
          rw [hor, Option.mem_some_iff] at hc
          obtain ⟨-, ht⟩ := subWsCommaGo_eq_nil hG
          subst ht
          rw [← hc]
          exact hl x (by simp [List.getLast?_singleton])
        | cons g gs =>
          rw [hG, List.getLast?_cons_cons] at hc
          cases hgg : (g :: gs).getLast? with
          | none => simp at hgg
          | some v =>
            rw [hgg] at hc
            have hor : (Option.some v).or pend.getLast? = some v := rfl
            rw [hor, Option.mem_some_iff] at hc
            cases t with
            | nil => rw [subWsCommaGo] at hG; exact absurd hG (by simp)
            | cons y ts =>
              have hLG : LastOk (subWsCommaGo [] (y :: ts)) :=
                ih (fun d hd => hl d (by rwa [List.getLast?_cons_cons])) []
                  (fun hcontra => by simp at hcontra)
              exact hLG c (by rw [hG, hgg]; exact Option.mem_some_iff.mpr hc)

theorem adjFull_comma_left {y : Char} (hy : isWs y = false) : adjFull ',' y :=
  ⟨⟨fun hand => by rw [hy] at hand; exact absurd hand.2 (by simp),
    fun hand => by rw [hy] at hand; exact absurd hand.2 (by simp)⟩,
    fun hand => absurd hand.1 (by decide)⟩

theorem adjFull_plain_left {x : Char} (h1 : isWs x = false) (h2 : x ≠ ',') (y : Char) :
    adjFull x y :=
  ⟨⟨fun hand => by rw [h1] at hand; exact absurd hand.1 (by simp),
    fun hand => absurd hand.1 h2⟩,
    fun hand => by rw [h1] at hand; exact absurd hand.1 (by simp)⟩

theorem subWsCommaGo_chain {m : List Char} :
    ∀ pend : List Char, List.Chain' adjWC (pend ++ m) → pend.length ≤ 1 →
      (∀ w ∈ pend, isWs w = true) → List.Chain' adjFull (subWsCommaGo pend m) := by
  induction m with
  | nil =>
    intro pend _ hp1 _
    rw [subWsCommaGo]
    rcases pend with _ | ⟨w, pend'⟩
    · simp
    · rcases pend' with _ | ⟨w2, p3⟩
      · exact List.chain'_singleton w
      · simp at hp1
  | cons x t ih =>
    intro pend hm hp1 hpw
    rcases pend with _ | ⟨w, pend'⟩
    · rw [List.nil_append] at hm
      obtain ⟨hrel, hmt⟩ := List.chain'_cons'.mp hm
      rw [subWsCommaGo]
      by_cases h1 : isWs x = true
      · rw [if_pos h1]
        refine ih [x] (by simpa using hm) (by simp) ?_
        intro w hw
        rw [List.mem_singleton.mp hw]
        exact h1
      · rw [if_neg h1]
        by_cases h2 : (x == ',') = true
        · rw [if_pos h2]
          rw [List.chain'_cons']
          refine ⟨?_, ih [] (by simpa using hmt) (by simp) (by simp)⟩
          intro y hy
          have hth : ∀ d ∈ t.head?, isWs d = false := fun d hd => by
            by_contra hws
            exact (hrel d hd).2 ⟨eq_of_beq h2, by simpa using hws⟩
          exact adjFull_comma_left (subWsCommaGo_head hth y hy)
        · rw [if_neg h2]
          rw [List.nil_append, List.chain'_cons']
          exact ⟨fun y _ => adjFull_plain_left (bnot_of_not h1)
              (fun hx => h2 (by rw [hx]; rfl)) y,
            ih [] (by simpa using hmt) (by simp) (by simp)⟩
    · rcases pend' with _ | ⟨w2, p3⟩
      · have hw : isWs w = true := hpw w (by simp)
        have hm' : List.Chain' adjWC (w :: x :: t) := by simpa using hm
        obtain ⟨hrelw, hm2⟩ := List.chain'_cons'.mp hm'
        obtain ⟨hrel, hmt⟩ := List.chain'_cons'.mp hm2
        rw [subWsCommaGo]
        by_cases h1 : isWs x = true
        · rw [if_pos h1]
          exact absurd ⟨hw, h1⟩ (hrelw x (by simp)).1
        · rw [if_neg h1]
          by_cases h2 : (x == ',') = true
          · rw [if_pos h2]
            rw [List.chain'_cons']
            refine ⟨?_, ih [] (by simpa using hmt) (by simp) (by simp)⟩
            intro y hy
            have hth : ∀ d ∈ t.head?, isWs d = false := fun d hd => by
              by_contra hws
              exact (hrel d hd).2 ⟨eq_of_beq h2, by simpa using hws⟩
            exact adjFull_comma_left (subWsCommaGo_head hth y hy)
          · rw [if_neg h2]
            rw [List.singleton_append, List.chain'_cons']
            constructor
            · intro y hy
              rw [List.head?_cons, Option.mem_some_iff] at hy
              rw [← hy]
              exact ⟨hrelw x (by simp), fun hand => h2 (by rw [hand.2]; rfl)⟩
            · rw [List.chain'_cons']
              exact ⟨fun y _ => adjFull_plain_left (bnot_of_not h1)
                  (fun hx => h2 (by rw [hx]; rfl)) y,
                ih [] (by simpa using hmt) (by simp) (by simp)⟩
      · simp at hp1

theorem keptChar_of {c : Char} (h : (isWordCh c || isWs c || c == ',') = true)
    (hws : isWs c = false) : keptChar c = true := by
  rcases (Bool.or_eq_true _ _).mp h with h1 | h1
  · rcases (Bool.or_eq_true _ _).mp h1 with h2 | h2
    · simp [keptChar, h2]
    · rw [h2] at hws
      exact absurd hws (by simp)
  · simp [keptChar, h1]

/-- Part A of idempotence: the output of the `clean_address` pipeline
satisfies the fixed-point invariant. -/
theorem cleanL_inv (l : List Char) : CleanInv (cleanL l) := by
  unfold cleanL
  have hM1 : ∀ c ∈ punctL (lowerL (removeTonesL l)),
      goodChar c = true ∧ (isWordCh c || isWs c || c == ',') = true :=
    punct_chars (fun c hc => lower_removeTones_good hc)
  set M1 := punctL (lowerL (removeTonesL l)) with hM1def
  have hCchars : ∀ c ∈ collapseWs M1, goodChar c = true ∧ keptChar c = true := by
    intro c hc
    rcases collapseGo_mem hc with ⟨hmem, hws⟩ | rfl
    · exact ⟨(hM1 c hmem).1, keptChar_of (hM1 c hmem).2 hws⟩
    · exact ⟨by decide, by decide⟩
  have hCchain : List.Chain' adjW (collapseWs M1) := collapseGo_chain false
  set C := collapseWs M1 with hCdef
  have hSchars : ∀ c ∈ stripL C, goodChar c = true ∧ keptChar c = true :=
    fun c hc => hCchars c (stripL_mem hc)
  have hSchain := stripL_chain hCchain
  have hShead := stripL_head C
  have hSlast := stripL_last C
  set S := stripL C with hSdef
  have hNchars : ∀ c ∈ subCommaWs S, goodChar c = true ∧ keptChar c = true :=
    fun c hc => hSchars c (subCommaWsGo_mem hc)
  have hNchain : List.Chain' adjWC (subCommaWs S) := subCommaWsGo_chain hSchain false
  have hNhead : HeadOk (subCommaWs S) := fun c hc =>
    hShead c (subCommaWsGo_false_head c hc)
  have hNlast : LastOk (subCommaWs S) := subCommaWsGo_last hSlast false
  set N := subCommaWs S with hNdef
  have hOchars : ∀ c ∈ subWsComma N, goodChar c = true ∧ keptChar c = true := by
    intro c hc
    rcases subWsCommaGo_mem hc with h | h
    · exact absurd h (List.not_mem_nil c)
    · exact hNchars c h
  have hOchain : List.Chain' adjFull (subWsComma N) :=
    subWsCommaGo_chain [] (by simpa using hNchain) (by simp) (by simp)
  have hOhead : HeadOk (subWsComma N) := subWsCommaGo_head hNhead
  have hOlast : LastOk (subWsComma N) :=
    subWsCommaGo_last hNlast [] (fun _ => by intro c hc; simp at hc)
  exact ⟨hOchars, hOchain, hOhead, hOlast⟩

theorem goodChar_spec {c : Char} (h : goodChar c = true) :
    decompCh c = [c] ∧ isMn c = false ∧ toLowCh c = c := by
  simp only [goodChar, Bool.and_eq_true, beq_iff_eq, Bool.not_eq_true'] at h
  exact ⟨h.1.1, h.1.2, h.2⟩

theorem vnWordChars_not_ws : vnWordChars.all (fun c => !isWs c) = true := by decide

theorem wordCh_not_ws {c : Char} (h : isWordCh c = true) : isWs c = false := by
  simp only [isWordCh, Bool.or_eq_true, Bool.and_eq_true, decide_eq_true_eq,
    beq_iff_eq] at h
  cases hIS : isWs c
  · rfl
  · exfalso
    have hmem : c.toNat ∈ wsCodes := List.elem_iff.mp (by rw [isWs] at hIS; exact hIS)
    rcases h with (((⟨h1, h2⟩ | ⟨h1, h2⟩) | ⟨h1, h2⟩) | h1) | h1
    · simp only [wsCodes, List.mem_cons, List.not_mem_nil, or_false] at hmem
      omega
    · simp only [wsCodes, List.mem_cons, List.not_mem_nil, or_false] at hmem
      omega
    · simp only [wsCodes, List.mem_cons, List.not_mem_nil, or_false] at hmem
      omega
    · simp only [wsCodes, List.mem_cons, List.not_mem_nil, or_false] at hmem
      omega
    · have := List.all_eq_true.mp vnWordChars_not_ws c (by
        exact List.elem_iff.mp h1)
      rw [hIS] at this
      exact absurd this (by simp)

theorem kept_ws_space {c : Char} (h : keptChar c = true) (hw : isWs c = true) : c = ' ' := by
  rcases (Bool.or_eq_true _ _).mp h with h1 | h1
  · rcases (Bool.or_eq_true _ _).mp h1 with h2 | h2
    · rw [wordCh_not_ws h2] at hw
      exact absurd hw (by simp)
    · exact eq_of_beq h2
  · rw [eq_of_beq h1] at hw
    exact absurd hw (by decide)

theorem cond_of_kept {c : Char} (h : keptChar c = true) :
    (isWordCh c || isWs c || c == ',') = true := by
  rcases (Bool.or_eq_true _ _).mp h with h1 | h1
  · rcases (Bool.or_eq_true _ _).mp h1 with h2 | h2
    · simp [h2]
    · rw [eq_of_beq h2]
      decide
  · simp [h1]

theorem removeTonesL_id {l : List Char} (h : ∀ c ∈ l, goodChar c = true) :
    removeTonesL l = l := by
  induction l with
  | nil => rfl
  | cons c t ih =>
    obtain ⟨h1, h2, -⟩ := goodChar_spec (h c (List.mem_cons_self _ _))
    have ht : removeTonesL t = t := ih (fun d hd => h d (List.mem_cons_of_mem _ hd))
    unfold removeTonesL at ht ⊢
    rw [List.flatMap_cons, List.filter_append, h1, ht]
    simp [h2]

theorem lowerL_id {l : List Char} (h : ∀ c ∈ l, goodChar c = true) : lowerL l = l := by
  induction l with
  | nil => rfl
  | cons c t ih =>
    have ht : lowerL t = t := ih (fun d hd => h d (List.mem_cons_of_mem _ hd))
    unfold lowerL at ht ⊢
    rw [List.map_cons, ht, (goodChar_spec (h c (List.mem_cons_self _ _))).2.2]

theorem punctL_id {l : List Char} (h : ∀ c ∈ l, keptChar c = true) : punctL l = l := by
  induction l with
  | nil => rfl
  | cons c t ih =>
    have ht : punctL t = t := ih (fun d hd => h d (List.mem_cons_of_mem _ hd))
    unfold punctL at ht ⊢
    rw [List.map_cons, ht, if_pos (cond_of_kept (h c (List.mem_cons_self _ _)))]

theorem collapseGo_id : ∀ l : List Char, (∀ c ∈ l, isWs c = true → c = ' ') →
    List.Chain' adjW l → ∀ b : Bool, (b = true → ∀ c ∈ l.head?, isWs c = false) →
    collapseGo b l = l := by
  intro l
  induction l with
  | nil => intro _ _ b _; rfl
  | cons x t ih =>
    intro hw hc b hb
    obtain ⟨hrel, hct⟩ := List.chain'_cons'.mp hc
    rw [collapseGo]
    by_cases hx : isWs x = true
    · rw [if_pos hx]
      cases b with
      | true => exact absurd hx (by rw [hb rfl x (by simp)]; simp)
      | false =>
        simp only [Bool.false_eq_true, if_false]
        have hht : ∀ c ∈ t.head?, isWs c = false := by
          intro c hcc
          by_contra hcw
          exact (hrel c hcc) ⟨hx, by simpa using hcw⟩
        rw [ih (fun d hd h2 => hw d (List.mem_cons_of_mem _ hd) h2) hct true
          (fun _ => hht)]
        rw [hw x (List.mem_cons_self _ _) hx]
    · rw [if_neg hx]
      rw [ih (fun d hd h2 => hw d (List.mem_cons_of_mem _ hd) h2) hct false
        (fun hcontra => absurd hcontra (by simp))]

theorem dropWhile_id {p : Char → Bool} {l : List Char}
    (h : ∀ c ∈ l.head?, p c = false) : l.dropWhile p = l := by
  cases l with
  | nil => rfl
  | cons x t =>
    have hx := h x (by simp)
    rw [List.dropWhile_cons, if_neg (by rw [hx]; simp)]

theorem stripL_id {l : List Char} (hh : HeadOk l) (hl : LastOk l) : stripL l = l := by
  unfold stripL
  rw [dropWhile_id hh]
  rw [dropWhile_id (by rw [List.head?_reverse]; exact hl)]
  exact List.reverse_reverse l

theorem subCommaWsGo_id : ∀ l : List Char,
    List.Chain' (fun a b => ¬(a = ',' ∧ isWs b = true)) l →
    ∀ b : Bool, (b = true → ∀ c ∈ l.head?, isWs c = false) →
    subCommaWsGo b l = l := by
  intro l
  induction l with
  | nil => intro _ b _; rfl
  | cons x t ih =>
    intro hc b hb
    obtain ⟨hrel, hct⟩ := List.chain'_cons'.mp hc
    rw [subCommaWsGo]
    by_cases h1 : (b && isWs x) = true
    · obtain ⟨hbt, hxw⟩ : b = true ∧ isWs x = true := by simpa using h1
      exact absurd hxw (by rw [hb hbt x (by simp)]; simp)
    · rw [if_neg h1]
      by_cases h2 : (x == ',') = true
      · rw [if_pos h2]
        have hht : ∀ c ∈ t.head?, isWs c = false := by
          intro c hcc
          by_contra hcw
          exact (hrel c hcc) ⟨eq_of_beq h2, by simpa using hcw⟩
        rw [ih hct true (fun _ => hht), eq_of_beq h2]
      · rw [if_neg h2]
        rw [ih hct false (fun hcontra => absurd hcontra (by simp))]

theorem subWsCommaGo_id : ∀ l : List Char,
    List.Chain' (fun a b => ¬(isWs a = true ∧ b = ',')) l →
    ∀ pend : List Char, (pend ≠ [] → ∀ c ∈ l.head?, c ≠ ',') →
    subWsCommaGo pend l = pend ++ l := by
  intro l
  induction l with
  | nil => intro _ pend _; rw [subWsCommaGo, List.append_nil]
  | cons x t ih =>
    intro hc pend hp
    obtain ⟨hrel, hct⟩ := List.chain'_cons'.mp hc
    rw [subWsCommaGo]
    by_cases h1 : isWs x = true
    · rw [if_pos h1]
      have hht : pend ++ [x] ≠ [] → ∀ c ∈ t.head?, c ≠ ',' := by
        intro _ c hcc hceq
        exact (hrel c hcc) ⟨h1, hceq⟩
      rw [ih hct (pend ++ [x]) hht, List.append_assoc]
      rfl
    · rw [if_neg h1]
      by_cases h2 : (x == ',') = true
      · rw [if_pos h2]
        have hpe : pend = [] := by
          by_contra hne
          exact hp hne x (by simp) (eq_of_beq h2)
        subst hpe
        rw [ih hct [] (fun hcontra => absurd rfl hcontra)]
        rw [List.nil_append, List.nil_append, eq_of_beq h2]
      · rw [if_neg h2]
        rw [ih hct [] (fun hcontra => absurd rfl hcontra), List.nil_append]

/-- Part B of idempotence: every list satisfying the invariant is a fixed
point of the `clean_address` pipeline. -/
theorem cleanL_fix {l : List Char} (h : CleanInv l) : cleanL l = l := by
  obtain ⟨hchars, hchain, hhead, hlast⟩ := h
  have hgood : ∀ c ∈ l, goodChar c = true := fun c hc => (hchars c hc).1
  have hkept : ∀ c ∈ l, keptChar c = true := fun c hc => (hchars c hc).2
  unfold cleanL
  rw [removeTonesL_id hgood, lowerL_id hgood, punctL_id hkept]
  rw [show collapseWs l = l from
    collapseGo_id l (fun c hc hw => kept_ws_space (hkept c hc) hw)
      (hchain.imp fun _ _ hab => hab.1.1) false (fun hcontra => absurd hcontra (by simp))]
  rw [stripL_id hhead hlast]
  rw [show subCommaWs l = l from subCommaWsGo_id l
    (hchain.imp fun _ _ hab => hab.1.2) false (fun hcontra => absurd hcontra (by simp))]
  rw [show subWsComma l = l from by
    rw [subWsComma, subWsCommaGo_id l (hchain.imp fun _ _ hab => hab.2) []
      (fun hx => absurd rfl hx), List.nil_append]]

/-- C4: the text normalizer is idempotent — applying `clean_address`
twice yields the same result as applying it once, for every cell
(strings, including empty, pure-diacritic and pure-punctuation ones, and
non-strings, which normalize to `""`). -/
theorem C4_clean_address_idempotent (c : Cell) :
    clean_address (.str (clean_address c)) = clean_address c := by
  cases c with
  | str s => exact congrArg (fun l => (⟨l⟩ : String)) (cleanL_fix (cleanL_inv s.toList))
  | num q => rfl
  | nan => rfl
